import Mathlib

/-!
Verification development for the animation property module
(`src/properties/animation.rs`): value grammar, the `animation` shorthand
codec, and the declaration-reconciliation handler.

The CSS tokenizer is an external collaborator of this module, so values are
embedded at the token level: a `Tok` is one already-lexed component value.
Numeric value payloads (times, numbers, lengths) are carried as integers;
the module under verification treats them opaquely.
-/

/-- ASCII lower-casing of a character, as used by the case-insensitive
keyword comparisons (`match_ignore_ascii_case`, `expect_ident_matching`). -/
def asciiLowerChar (c : Char) : Char :=
  if 'A' ≤ c ∧ c ≤ 'Z' then Char.ofNat (c.toNat + 32) else c

/-- ASCII lower-casing of a string. -/
def asciiLowerStr (s : String) : String :=
  ⟨s.data.map asciiLowerChar⟩

/-- ASCII case-insensitive string equality. -/
def ciEq (a b : String) : Bool :=
  asciiLowerStr a = asciiLowerStr b

/-- Modelled from the spec: a time value (`Time`, external to this module);
duration and delay default to 0 seconds.  Carried as an integer scalar. -/
abbrev Time := Int

/-- Modelled from the spec: a CSS number (`CSSNumber`, external to this
module), carried as an integer scalar. -/
abbrev CSSNumber := Int

/-- A value for the animation-name property. -/
inductive AnimationName where
  /-- The `none` keyword. -/
  | none
  /-- An identifier of a keyframes rule (a `CustomIdent`). -/
  | ident (s : String)
  /-- A `<string>` name of a keyframes rule. -/
  | string (s : String)
deriving DecidableEq

/-- A value for the animation-iteration-count property. -/
inductive AnimationIterationCount where
  /-- The animation will repeat the specified number of times. -/
  | number (n : CSSNumber)
  /-- The animation will repeat forever. -/
  | infinite
deriving DecidableEq

/-- A value for the animation-direction property. -/
inductive AnimationDirection where
  | normal
  | reverse
  | alternate
  | alternateReverse
deriving DecidableEq

/-- A value for the animation-play-state property. -/
inductive AnimationPlayState where
  | running
  | paused
deriving DecidableEq

/-- A value for the animation-fill-mode property. -/
inductive AnimationFillMode where
  | none
  | forwards
  | backwards
  | both
deriving DecidableEq

/-- A value for the animation-composition property. -/
inductive AnimationComposition where
  | replace
  | add
  | accumulate
deriving DecidableEq

/-- A scroller, used in the `scroll()` function. -/
inductive Scroller where
  | root
  | nearest
  | selfElement
deriving DecidableEq

/-- A scroll axis, used in the `scroll()` and `view()` functions. -/
inductive ScrollAxis where
  | block
  | inline
  | x
  | y
deriving DecidableEq

/-- Modelled from the spec: a length-or-percentage-or-auto value
(`LengthPercentageOrAuto`, external to this module); the numeric case is
carried as an integer scalar. -/
inductive LengthPercentageOrAuto where
  | auto
  | px (n : Int)
deriving DecidableEq

/-- Modelled from the spec: a 2-D size (`Size2D`, external to this module):
two independent values, the second defaulting to the first on parse and
omitted on print when equal to the first. -/
abbrev Size2D := LengthPercentageOrAuto × LengthPercentageOrAuto

/-- The `scroll()` function. -/
structure ScrollTimeline where
  /-- Which element to use as the scroll container. -/
  scroller : Scroller
  /-- Which axis of the scroll container to use as the progress. -/
  axis : ScrollAxis
deriving DecidableEq

/-- The `view()` function. -/
structure ViewTimeline where
  /-- Which axis of the scroll container to use as the progress. -/
  axis : ScrollAxis
  /-- An adjustment of the view progress visibility range. -/
  inset : Size2D
deriving DecidableEq

/-- A value for the animation-timeline property. -/
inductive AnimationTimeline where
  /-- The default document timeline. -/
  | auto
  /-- The animation is not associated with a timeline. -/
  | none
  /-- A timeline referenced by (dashed-ident) name. -/
  | dashedIdent (s : String)
  /-- The `scroll()` function. -/
  | scroll (st : ScrollTimeline)
  /-- The `view()` function. -/
  | view (vt : ViewTimeline)
deriving DecidableEq

/-- Modelled from the spec: an easing function reference
(`EasingFunction`, external to this module), restricted to its keyword
forms, with default `ease`. -/
inductive EasingFunction where
  | linear
  | ease
  | easeIn
  | easeOut
  | easeInOut
  | stepStart
  | stepEnd
deriving DecidableEq

/-- One already-lexed CSS component value.  The raw tokenizer is an external
collaborator; this module only peeks and consumes such tokens. -/
inductive Tok where
  /-- An identifier token. -/
  | ident (s : String)
  /-- A quoted string token. -/
  | str (s : String)
  /-- A dimension token with a time unit. -/
  | time (t : Time)
  /-- A plain number token. -/
  | num (n : CSSNumber)
  /-- A dimension token with a length (or percentage) unit. -/
  | length (n : Int)
  /-- A function token together with its already-lexed nested block. -/
  | func (name : String) (args : List Tok)

/-! ## Keyword tables (canonical print keyword and case-insensitive lookup) -/

def EasingFunction.toKw : EasingFunction → String
  | .linear => "linear"
  | .ease => "ease"
  | .easeIn => "ease-in"
  | .easeOut => "ease-out"
  | .easeInOut => "ease-in-out"
  | .stepStart => "step-start"
  | .stepEnd => "step-end"

/-- Modelled from the spec: the easing keyword parser;
`EasingFunction::is_ident` holds exactly of the strings this accepts. -/
def easingFromString (s : String) : Option EasingFunction :=
  let l := asciiLowerStr s
  if l = "linear" then some .linear
  else if l = "ease" then some .ease
  else if l = "ease-in" then some .easeIn
  else if l = "ease-out" then some .easeOut
  else if l = "ease-in-out" then some .easeInOut
  else if l = "step-start" then some .stepStart
  else if l = "step-end" then some .stepEnd
  else Option.none

/-- `EasingFunction::is_ident`: the name text parses as an easing keyword. -/
def EasingFunction.isIdentStr (s : String) : Bool :=
  (easingFromString s).isSome

def EasingFunction.is_ease (e : EasingFunction) : Bool :=
  e = .ease

def AnimationDirection.toKw : AnimationDirection → String
  | .normal => "normal"
  | .reverse => "reverse"
  | .alternate => "alternate"
  | .alternateReverse => "alternate-reverse"

/-- `AnimationDirection::parse_string` (case-insensitive keyword lookup). -/
def directionFromString (s : String) : Option AnimationDirection :=
  let l := asciiLowerStr s
  if l = "normal" then some .normal
  else if l = "reverse" then some .reverse
  else if l = "alternate" then some .alternate
  else if l = "alternate-reverse" then some .alternateReverse
  else Option.none

def AnimationPlayState.toKw : AnimationPlayState → String
  | .running => "running"
  | .paused => "paused"

/-- `AnimationPlayState::parse_string` (case-insensitive keyword lookup). -/
def playStateFromString (s : String) : Option AnimationPlayState :=
  let l := asciiLowerStr s
  if l = "running" then some .running
  else if l = "paused" then some .paused
  else Option.none

def AnimationFillMode.toKw : AnimationFillMode → String
  | .none => "none"
  | .forwards => "forwards"
  | .backwards => "backwards"
  | .both => "both"

/-- `AnimationFillMode::parse_string` (case-insensitive keyword lookup). -/
def fillModeFromString (s : String) : Option AnimationFillMode :=
  let l := asciiLowerStr s
  if l = "none" then some .none
  else if l = "forwards" then some .forwards
  else if l = "backwards" then some .backwards
  else if l = "both" then some .both
  else Option.none

def Scroller.toKw : Scroller → String
  | .root => "root"
  | .nearest => "nearest"
  | .selfElement => "self"

def scrollerFromString (s : String) : Option Scroller :=
  let l := asciiLowerStr s
  if l = "root" then some .root
  else if l = "nearest" then some .nearest
  else if l = "self" then some .selfElement
  else Option.none

def ScrollAxis.toKw : ScrollAxis → String
  | .block => "block"
  | .inline => "inline"
  | .x => "x"
  | .y => "y"

def scrollAxisFromString (s : String) : Option ScrollAxis :=
  let l := asciiLowerStr s
  if l = "block" then some .block
  else if l = "inline" then some .inline
  else if l = "x" then some .x
  else if l = "y" then some .y
  else Option.none

/-- The keywords that force an animation name string to keep its quotes on
output (`AnimationName::to_css`): CSS-wide keywords and `none`. -/
def isReservedNameKeyword (s : String) : Bool :=
  let l := asciiLowerStr s
  l = "none" || l = "initial" || l = "inherit" || l = "unset" ||
  l = "default" || l = "revert" || l = "revert-layer"

/-- Modelled from the spec: `CustomIdent::parse` validity (external to this
module) — an identifier-reference may not be a CSS-wide keyword or
`default`. -/
def isValidCustomIdent (s : String) : Bool :=
  let l := asciiLowerStr s
  !(l = "initial" || l = "inherit" || l = "unset" || l = "default" ||
    l = "revert" || l = "revert-layer")

/-- A dashed ident (`--`-prefixed), as required by `DashedIdent::parse`. -/
def isDashedStr (s : String) : Bool :=
  match s.data with
  | c1 :: c2 :: _ => c1 = '-' && c2 = '-'
  | _ => false

/-! ## Sub-value parsers over the token stream

Each parser consumes tokens from the front of the list and returns the value
together with the remaining tokens, or fails (`try_parse` = returning
`Option.none` and consuming nothing). -/

def timeParse : List Tok → Option (Time × List Tok)
  | .time t :: r => some (t, r)
  | _ => Option.none

def easingParse : List Tok → Option (EasingFunction × List Tok)
  | .ident s :: r =>
    match easingFromString s with
    | some v => some (v, r)
    | Option.none => Option.none
  | _ => Option.none

/-- `AnimationIterationCount::parse`: `infinite`, else a number. -/
def iterationCountParse : List Tok → Option (AnimationIterationCount × List Tok)
  | .ident s :: r =>
    if asciiLowerStr s = "infinite" then some (.infinite, r) else Option.none
  | .num n :: r => some (.number n, r)
  | _ => Option.none

def directionParse : List Tok → Option (AnimationDirection × List Tok)
  | .ident s :: r =>
    match directionFromString s with
    | some v => some (v, r)
    | Option.none => Option.none
  | _ => Option.none

def playStateParse : List Tok → Option (AnimationPlayState × List Tok)
  | .ident s :: r =>
    match playStateFromString s with
    | some v => some (v, r)
    | Option.none => Option.none
  | _ => Option.none

def fillModeParse : List Tok → Option (AnimationFillMode × List Tok)
  | .ident s :: r =>
    match fillModeFromString s with
    | some v => some (v, r)
    | Option.none => Option.none
  | _ => Option.none

def scrollerParse : List Tok → Option (Scroller × List Tok)
  | .ident s :: r =>
    match scrollerFromString s with
    | some v => some (v, r)
    | Option.none => Option.none
  | _ => Option.none

def scrollAxisParse : List Tok → Option (ScrollAxis × List Tok)
  | .ident s :: r =>
    match scrollAxisFromString s with
    | some v => some (v, r)
    | Option.none => Option.none
  | _ => Option.none

/-- `CustomIdent::parse` over the token stream. -/
def customIdentParse : List Tok → Option (String × List Tok)
  | .ident s :: r => if isValidCustomIdent s then some (s, r) else Option.none
  | _ => Option.none

/-- `AnimationName::parse`: the `none` keyword, then a quoted string, then a
custom ident. -/
def animationNameParse : List Tok → Option (AnimationName × List Tok)
  | .ident s :: r =>
    if asciiLowerStr s = "none" then some (.none, r)
    else
      match customIdentParse (.ident s :: r) with
      | some (id, r2) => some (.ident id, r2)
      | Option.none => Option.none
  | .str s :: r => some (.string s, r)
  | _ => Option.none

/-- Modelled from the spec: `LengthPercentageOrAuto::parse` (external to
this module): the `auto` keyword, else a length-percentage. -/
def lpoaParse : List Tok → Option (LengthPercentageOrAuto × List Tok)
  | .ident s :: r => if ciEq s "auto" then some (.auto, r) else Option.none
  | .length n :: r => some (.px n, r)
  | _ => Option.none

/-- Modelled from the spec: `Size2D::parse` (external to this module): a
first value, then an optional second value defaulting to the first. -/
def size2DParse (ts : List Tok) : Option (Size2D × List Tok) :=
  match lpoaParse ts with
  | Option.none => Option.none
  | some (a, r) =>
    match lpoaParse r with
    | some (b, r2) => some ((a, b), r2)
    | Option.none => some ((a, a), r)

/-- The loop of `ScrollTimeline::parse`: fill whichever of the two optional
slots has not yet been filled, in either order.  The recursive call happens
only when the axis slot transitions from empty to filled, so fuel 3 is
enough for the loop to reach its fixed point. -/
def scrollLoop : Nat → Option Scroller → Option ScrollAxis → List Tok →
    Option Scroller × Option ScrollAxis × List Tok
  | 0, sc, ax, ts => (sc, ax, ts)
  | f+1, sc, ax, ts =>
    let p1 : Option Scroller × List Tok :=
      match sc with
      | some v => (some v, ts)
      | Option.none =>
        match scrollerParse ts with
        | some (v, r) => (some v, r)
        | Option.none => (Option.none, ts)
    match ax with
    | some v => (p1.1, some v, p1.2)
    | Option.none =>
      match scrollAxisParse p1.2 with
      | some (v, r) => scrollLoop f p1.1 (some v) r
      | Option.none => (p1.1, Option.none, p1.2)

/-- `ScrollTimeline::parse`: both arguments optional, any order, defaults
`nearest`/`block`. -/
def scrollTimelineParse (ts : List Tok) : ScrollTimeline × List Tok :=
  let r := scrollLoop 3 Option.none Option.none ts
  ({ scroller := r.1.getD .nearest, axis := r.2.1.getD .block }, r.2.2)

/-- The loop of `ViewTimeline::parse`, analogous to `scrollLoop`. -/
def viewLoop : Nat → Option ScrollAxis → Option Size2D → List Tok →
    Option ScrollAxis × Option Size2D × List Tok
  | 0, ax, ins, ts => (ax, ins, ts)
  | f+1, ax, ins, ts =>
    let p1 : Option ScrollAxis × List Tok :=
      match ax with
      | some v => (some v, ts)
      | Option.none =>
        match scrollAxisParse ts with
        | some (v, r) => (some v, r)
        | Option.none => (Option.none, ts)
    match ins with
    | some v => (p1.1, some v, p1.2)
    | Option.none =>
      match size2DParse p1.2 with
      | some (v, r) => viewLoop f p1.1 (some v) r
      | Option.none => (p1.1, Option.none, p1.2)

/-- `ViewTimeline::parse`: axis and inset optional, any order, defaults
`block` and `auto auto`. -/
def viewTimelineParse (ts : List Tok) : ViewTimeline × List Tok :=
  let r := viewLoop 3 Option.none Option.none ts
  ({ axis := r.1.getD .block,
     inset := r.2.1.getD (.auto, .auto) }, r.2.2)

/-- `AnimationTimeline::parse`: `auto`, `none`, a dashed ident, else a
`scroll()` or `view()` function whose block must be consumed entirely. -/
def animationTimelineParse : List Tok → Option (AnimationTimeline × List Tok)
  | .ident s :: r =>
    if ciEq s "auto" then some (.auto, r)
    else if ciEq s "none" then some (.none, r)
    else if isDashedStr s then some (.dashedIdent s, r)
    else Option.none
  | .func f args :: r =>
    if asciiLowerStr f = "scroll" then
      match scrollTimelineParse args with
      | (st, rem) => if rem.isEmpty then some (.scroll st, r) else Option.none
    else if asciiLowerStr f = "view" then
      match viewTimelineParse args with
      | (vt, rem) => if rem.isEmpty then some (.view vt, r) else Option.none
    else Option.none
  | _ => Option.none

/-! ## The `animation` shorthand entry (`Animation`) -/

/-- A value for the `animation` shorthand property: one animation entry. -/
structure Animation where
  /-- The animation name. -/
  name : AnimationName
  /-- The animation duration. -/
  duration : Time
  /-- The easing function for the animation. -/
  timing_function : EasingFunction
  /-- The number of times the animation will run. -/
  iteration_count : AnimationIterationCount
  /-- The direction of the animation. -/
  direction : AnimationDirection
  /-- The current play state of the animation. -/
  play_state : AnimationPlayState
  /-- The animation delay. -/
  delay : Time
  /-- The animation fill mode. -/
  fill_mode : AnimationFillMode
  /-- The animation timeline. -/
  timeline : AnimationTimeline
deriving DecidableEq

/-- The entry whose every field is at its documented default. -/
def animationDefault : Animation :=
  { name := .none, duration := 0, timing_function := .ease,
    iteration_count := .number 1, direction := .normal,
    play_state := .running, delay := 0, fill_mode := .none,
    timeline := .auto }

/-- The nine optional slots maintained by `Animation::parse`. -/
structure ParseSlots where
  name : Option AnimationName := Option.none
  duration : Option Time := Option.none
  timing_function : Option EasingFunction := Option.none
  iteration_count : Option AnimationIterationCount := Option.none
  direction : Option AnimationDirection := Option.none
  play_state : Option AnimationPlayState := Option.none
  delay : Option Time := Option.none
  fill_mode : Option AnimationFillMode := Option.none
  timeline : Option AnimationTimeline := Option.none
deriving DecidableEq

/-- One pass of the `Animation::parse` loop (the `parse_prop!` sequence):
attempt, in the fixed priority order duration, timing-function, delay,
iteration-count, direction, fill-mode, play-state, name, timeline, to fill
the first still-empty slot whose sub-parser succeeds. -/
def tryPass (s : ParseSlots) (ts : List Tok) : Option (ParseSlots × List Tok) :=
  match (if s.duration.isSome then Option.none else timeParse ts) with
  | some (v, r) => some ({ s with duration := some v }, r)
  | Option.none =>
  match (if s.timing_function.isSome then Option.none else easingParse ts) with
  | some (v, r) => some ({ s with timing_function := some v }, r)
  | Option.none =>
  match (if s.delay.isSome then Option.none else timeParse ts) with
  | some (v, r) => some ({ s with delay := some v }, r)
  | Option.none =>
  match (if s.iteration_count.isSome then Option.none else iterationCountParse ts) with
  | some (v, r) => some ({ s with iteration_count := some v }, r)
  | Option.none =>
  match (if s.direction.isSome then Option.none else directionParse ts) with
  | some (v, r) => some ({ s with direction := some v }, r)
  | Option.none =>
  match (if s.fill_mode.isSome then Option.none else fillModeParse ts) with
  | some (v, r) => some ({ s with fill_mode := some v }, r)
  | Option.none =>
  match (if s.play_state.isSome then Option.none else playStateParse ts) with
  | some (v, r) => some ({ s with play_state := some v }, r)
  | Option.none =>
  match (if s.name.isSome then Option.none else animationNameParse ts) with
  | some (v, r) => some ({ s with name := some v }, r)
  | Option.none =>
  match (if s.timeline.isSome then Option.none else animationTimelineParse ts) with
  | some (v, r) => some ({ s with timeline := some v }, r)
  | Option.none => Option.none

/-- The `Animation::parse` loop: repeat passes until one makes no progress.
Every successful pass consumes at least one token, so `ts.length + 1` units
of fuel always reach the loop's exit. -/
def parseGo : Nat → ParseSlots → List Tok → ParseSlots × List Tok
  | 0, s, ts => (s, ts)
  | f+1, s, ts =>
    match tryPass s ts with
    | some (s2, ts2) => parseGo f s2 ts2
    | Option.none => (s, ts)

/-- The `Animation::parse` loop run from a given slot state. -/
def parseRun (s : ParseSlots) (ts : List Tok) : ParseSlots × List Tok :=
  parseGo (ts.length + 1) s ts

/-- `Animation::parse`: run the greedy loop, then default every unfilled
slot. -/
def Animation.parse (ts : List Tok) : Animation × List Tok :=
  let r := parseRun {} ts
  ({ name := r.1.name.getD .none,
     duration := r.1.duration.getD 0,
     timing_function := r.1.timing_function.getD .ease,
     iteration_count := r.1.iteration_count.getD (.number 1),
     direction := r.1.direction.getD .normal,
     play_state := r.1.play_state.getD .running,
     delay := r.1.delay.getD 0,
     fill_mode := r.1.fill_mode.getD .none,
     timeline := r.1.timeline.getD .auto }, r.2)

/-! ## Printing -/

def AnimationIterationCount.toTok : AnimationIterationCount → Tok
  | .number n => .num n
  | .infinite => .ident "infinite"

def LengthPercentageOrAuto.toTok : LengthPercentageOrAuto → Tok
  | .auto => .ident "auto"
  | .px n => .length n

/-- Modelled from the spec: `Size2D::to_css` (external to this module):
print the first value, and the second only when it differs. -/
def size2DToToks (sz : Size2D) : List Tok :=
  [sz.1.toTok] ++ (if sz.2 ≠ sz.1 then [sz.2.toTok] else [])

/-- `ScrollTimeline::to_css`: each argument printed only when non-default. -/
def ScrollTimeline.argsToks (st : ScrollTimeline) : List Tok :=
  (if st.scroller ≠ .nearest then [Tok.ident st.scroller.toKw] else []) ++
  (if st.axis ≠ .block then [Tok.ident st.axis.toKw] else [])

/-- `ViewTimeline::to_css`: each argument printed only when non-default. -/
def ViewTimeline.argsToks (vt : ViewTimeline) : List Tok :=
  (if vt.axis ≠ .block then [Tok.ident vt.axis.toKw] else []) ++
  (if vt.inset ≠ (.auto, .auto) then size2DToToks vt.inset else [])

/-- `AnimationTimeline::to_css`. -/
def AnimationTimeline.toToks : AnimationTimeline → List Tok
  | .auto => [Tok.ident "auto"]
  | .none => [Tok.ident "none"]
  | .dashedIdent s => [Tok.ident s]
  | .scroll st => [Tok.func "scroll" st.argsToks]
  | .view vt => [Tok.func "view" vt.argsToks]

/-- `AnimationName::to_css` (CSS-modules scoping inactive): `none` and plain
identifiers print as identifiers; a string keeps its quotes only when its
lowercase form collides with a reserved keyword, and otherwise is written as
an identifier. -/
def AnimationName.toTok : AnimationName → Tok
  | .none => .ident "none"
  | .ident s => .ident s
  | .string s => if isReservedNameKeyword s then .str s else .ident s

/-- `Animation::to_css`: each field is printed when non-default, or when the
entry's name text would itself parse as that field's type (so the greedy
re-parse cannot swallow the name token early); a `none` name prints alone;
the timeline is appended after the name when non-default. -/
def Animation.toCss (a : Animation) : List Tok :=
  (match a.name with
   | .none => []
   | .ident n | .string n =>
     (if ¬ a.duration = 0 ∨ ¬ a.delay = 0 then [Tok.time a.duration] else []) ++
     ((if ¬ a.timing_function = .ease ∨ EasingFunction.isIdentStr n then
        [Tok.ident a.timing_function.toKw] else []) ++
     ((if ¬ a.delay = 0 then [Tok.time a.delay] else []) ++
     ((if ¬ a.iteration_count = .number 1 ∨ n = "infinite" then
        [a.iteration_count.toTok] else []) ++
     ((if ¬ a.direction = .normal ∨ (directionFromString n).isSome then
        [Tok.ident a.direction.toKw] else []) ++
     ((if ¬ a.fill_mode = .none ∨ (¬ ciEq n "none" = true ∧ (fillModeFromString n).isSome) then
        [Tok.ident a.fill_mode.toKw] else []) ++
     (if ¬ a.play_state = .running ∨ (playStateFromString n).isSome then
        [Tok.ident a.play_state.toKw] else [])))))))
  ++ ([a.name.toTok] ++
      (if a.name ≠ .none ∧ a.timeline ≠ .auto then a.timeline.toToks else []))

/-! ## Vendor-prefix sets and the declaration model -/

/-- A finite bit-set of vendor prefixes plus the "unprefixed" member
(`VendorPrefix` bitflags; the flag confusingly named `None` is the
unprefixed member, called `n` here). -/
structure PrefixSet where
  n : Bool
  webkit : Bool
  moz : Bool
  ms : Bool
  o : Bool
deriving DecidableEq

/-- The set holding only the unprefixed member (`VendorPrefix::None`). -/
def PrefixSet.N : PrefixSet := ⟨true, false, false, false, false⟩

/-- The set holding only the WebKit member. -/
def PrefixSet.WK : PrefixSet := ⟨false, true, false, false, false⟩

def PrefixSet.inter (a b : PrefixSet) : PrefixSet :=
  ⟨a.n && b.n, a.webkit && b.webkit, a.moz && b.moz, a.ms && b.ms, a.o && b.o⟩

def PrefixSet.union (a b : PrefixSet) : PrefixSet :=
  ⟨a.n || b.n, a.webkit || b.webkit, a.moz || b.moz, a.ms || b.ms, a.o || b.o⟩

/-- Bitflags `contains`: every member of `b` is a member of `a`. -/
def PrefixSet.contains (a b : PrefixSet) : Bool :=
  (!b.n || a.n) && (!b.webkit || a.webkit) && (!b.moz || a.moz) &&
  (!b.ms || a.ms) && (!b.o || a.o)

/-- Bitflags `remove`: drop every member of `b` from `a`. -/
def PrefixSet.remove (a b : PrefixSet) : PrefixSet :=
  ⟨a.n && !b.n, a.webkit && !b.webkit, a.moz && !b.moz, a.ms && !b.ms, a.o && !b.o⟩

def PrefixSet.isEmpty (a : PrefixSet) : Bool :=
  !(a.n || a.webkit || a.moz || a.ms || a.o)

/-- Modelled from the spec: the named CSS features the compatibility oracle
is consulted about for prefix emission. -/
inductive Feature where
  | animation
  | animationName
  | animationDuration
  | animationTimingFunction
  | animationIterationCount
  | animationDirection
  | animationPlayState
  | animationDelay
  | animationFillMode
deriving DecidableEq

/-- Modelled from the spec: the combined-syntax compatibility queries. -/
inductive CompatFeature where
  | animationTimelineShorthand
deriving DecidableEq

/-- The property identity tags relevant to this module
(`PropertyId`; `other` stands for every identity outside this family). -/
inductive PropertyId where
  | animationName (vp : PrefixSet)
  | animationDuration (vp : PrefixSet)
  | animationTimingFunction (vp : PrefixSet)
  | animationIterationCount (vp : PrefixSet)
  | animationDirection (vp : PrefixSet)
  | animationPlayState (vp : PrefixSet)
  | animationDelay (vp : PrefixSet)
  | animationFillMode (vp : PrefixSet)
  | animationComposition
  | animationTimeline
  | animation (vp : PrefixSet)
  | other
deriving DecidableEq

/-- `is_animation_property`: does a property identity belong to the
animation family handled by `AnimationHandler`? -/
def isAnimationProperty : PropertyId → Bool
  | .animationName _ => true
  | .animationDuration _ => true
  | .animationTimingFunction _ => true
  | .animationIterationCount _ => true
  | .animationDirection _ => true
  | .animationPlayState _ => true
  | .animationDelay _ => true
  | .animationFillMode _ => true
  | .animationComposition => true
  | .animationTimeline => true
  | .animation _ => true
  | .other => false

/-- A raw component of an unparsed value: either a raw token or an
already-substituted animation-name value (`TokenOrValue`). -/
inductive TokenOrValue where
  | token (t : Tok)
  | animationName (n : AnimationName)

/-- An opaque unparsed declaration: raw tokens plus a property identity
(`UnparsedProperty`). -/
structure UnparsedProperty where
  property_id : PropertyId
  value : List TokenOrValue

/-- A declaration (`Property`), restricted to the variants this module
inspects; `other` stands for every other typed declaration. -/
inductive Property where
  | animationName (v : List AnimationName) (vp : PrefixSet)
  | animationDuration (v : List Time) (vp : PrefixSet)
  | animationTimingFunction (v : List EasingFunction) (vp : PrefixSet)
  | animationIterationCount (v : List AnimationIterationCount) (vp : PrefixSet)
  | animationDirection (v : List AnimationDirection) (vp : PrefixSet)
  | animationPlayState (v : List AnimationPlayState) (vp : PrefixSet)
  | animationDelay (v : List Time) (vp : PrefixSet)
  | animationFillMode (v : List AnimationFillMode) (vp : PrefixSet)
  | animationComposition (v : List AnimationComposition)
  | animationTimeline (v : List AnimationTimeline)
  | animation (v : List Animation) (vp : PrefixSet)
  | unparsed (u : UnparsedProperty)
  | other

/-- Modelled from the spec: the read-only external collaborators
(`Targets` and the prefix-expansion hook): which prefixes the active
targets require for a feature, whether a combined syntax is compatible,
and `UnparsedProperty::get_prefixed`. -/
structure Targets where
  prefixes : PrefixSet → Feature → PrefixSet
  isCompatible : CompatFeature → Bool
  getPrefixed : UnparsedProperty → Feature → UnparsedProperty

/-- The handler context (`PropertyHandlerContext`), reduced to the targets
oracle consumed by this module. -/
structure Ctx where
  targets : Targets

/-- An oracle that requires no extra prefixes, reports every feature
compatible, and expands nothing. -/
def idCtx : Ctx :=
  { targets :=
    { prefixes := fun vp _ => vp,
      isCompatible := fun _ => true,
      getPrefixed := fun u _ => u } }

/-! ## The reconciliation handler (`AnimationHandler`) -/

/-- The per-block accumulation state of `AnimationHandler`. -/
structure AnimationHandler where
  names : Option (List AnimationName × PrefixSet) := Option.none
  durations : Option (List Time × PrefixSet) := Option.none
  timing_functions : Option (List EasingFunction × PrefixSet) := Option.none
  iteration_counts : Option (List AnimationIterationCount × PrefixSet) := Option.none
  directions : Option (List AnimationDirection × PrefixSet) := Option.none
  play_states : Option (List AnimationPlayState × PrefixSet) := Option.none
  delays : Option (List Time × PrefixSet) := Option.none
  fill_modes : Option (List AnimationFillMode × PrefixSet) := Option.none
  timelines : Option (List AnimationTimeline) := Option.none
  has_any : Bool := false
deriving DecidableEq

/-- The empty handler state. -/
def emptyHandler : AnimationHandler := {}

/-- The nine-way positional zip of `flush` (`izip!`), truncating at the
shortest list; when a separate timeline declaration is emitted the entry
timeline is reset to `auto`. -/
def zipAnimation : List AnimationName → List Time → List EasingFunction →
    List AnimationIterationCount → List AnimationDirection →
    List AnimationPlayState → List Time → List AnimationFillMode →
    List AnimationTimeline → Bool → List Animation
  | nm :: nms, d :: ds, tf :: tfs, ic :: ics, dir :: dirs, ps :: pss,
    dl :: dls, fm :: fms, tl :: tls, sep =>
    { name := nm, duration := d, timing_function := tf, iteration_count := ic,
      direction := dir, play_state := ps, delay := dl, fill_mode := fm,
      timeline := if sep then .auto else tl } ::
    zipAnimation nms ds tfs ics dirs pss dls fms tls sep
  | _, _, _, _, _, _, _, _, _, _ => []

/-- One longhand emission of `flush` (the `prop!` macro): emit the held
list under the prefixes the targets require, unless the held prefix set is
empty. -/
def emitProp (held : Option (List α × PrefixSet))
    (mk : List α → PrefixSet → Property) (feat : Feature) (context : Ctx) :
    List Property :=
  match held with
  | some (val, vp) =>
    if vp.isEmpty then [] else [mk val (context.targets.prefixes vp feat)]
  | Option.none => []

/-- `AnimationHandler::flush`: try to collapse the held longhands into one
shorthand declaration covering the intersection of their prefix sets, then
emit every category whose prefix set still has members as a longhand.
Returns the cleared handler together with the emitted declarations. -/
def AnimationHandler.flush (self : AnimationHandler) (context : Ctx) :
    AnimationHandler × List Property :=
  if self.has_any = false then (self, []) else
  -- every accumulator field is taken (`mem::take`), so the resulting
  -- handler is empty regardless of the branch below
  let timelines_value := self.timelines
  let step :
      Option (List AnimationName × PrefixSet) ×
      Option (List Time × PrefixSet) ×
      Option (List EasingFunction × PrefixSet) ×
      Option (List AnimationIterationCount × PrefixSet) ×
      Option (List AnimationDirection × PrefixSet) ×
      Option (List AnimationPlayState × PrefixSet) ×
      Option (List Time × PrefixSet) ×
      Option (List AnimationFillMode × PrefixSet) ×
      Option (List AnimationTimeline) × List Property :=
    match self.names, self.durations, self.timing_functions,
        self.iteration_counts, self.directions, self.play_states,
        self.delays, self.fill_modes with
    | some (namesL, names_vp), some (durationsL, durations_vp),
      some (tfL, tf_vp), some (icL, ic_vp), some (dirL, dir_vp),
      some (psL, ps_vp), some (dlL, dl_vp), some (fmL, fm_vp) =>
      -- Only use shorthand syntax if the number of animations matches on
      -- all properties.
      let len := namesL.length
      let intersection :=
        (((((((names_vp.inter durations_vp).inter tf_vp).inter ic_vp).inter
          dir_vp).inter ps_vp).inter dl_vp).inter fm_vp)
      let timelines : List AnimationTimeline :=
        match timelines_value with
        | some ts => ts
        | Option.none =>
          if intersection.contains PrefixSet.N = false then
            -- Prefixed animation shorthand does not support animation-timeline
            List.replicate len AnimationTimeline.auto
          else []
      if intersection.isEmpty = false ∧ durationsL.length = len ∧
          tfL.length = len ∧ icL.length = len ∧ dirL.length = len ∧
          psL.length = len ∧ dlL.length = len ∧ fmL.length = len ∧
          timelines.length = len then
        let timeline_property : Option Property :=
          if (timelines.any fun t => t ≠ AnimationTimeline.auto) ∧
              (intersection ≠ PrefixSet.N ∨
               context.targets.isCompatible .animationTimelineShorthand = false)
          then some (Property.animationTimeline timelines) else Option.none
        let animations := zipAnimation namesL durationsL tfL icL dirL psL
          dlL fmL timelines timeline_property.isSome
        let pfx := context.targets.prefixes intersection .animation
        (some ([], names_vp.remove intersection),
         some ([], durations_vp.remove intersection),
         some ([], tf_vp.remove intersection),
         some ([], ic_vp.remove intersection),
         some ([], dir_vp.remove intersection),
         some ([], ps_vp.remove intersection),
         some ([], dl_vp.remove intersection),
         some ([], fm_vp.remove intersection),
         Option.none,
         [Property.animation animations pfx] ++
           (match timeline_property with
            | some p => [p]
            | Option.none => []))
      else
        (self.names, self.durations, self.timing_functions,
         self.iteration_counts, self.directions, self.play_states,
         self.delays, self.fill_modes, timelines_value, [])
    | _, _, _, _, _, _, _, _ =>
      (self.names, self.durations, self.timing_functions,
       self.iteration_counts, self.directions, self.play_states,
       self.delays, self.fill_modes, timelines_value, [])
  match step with
  | (names1, durations1, tf1, ic1, dir1, ps1, dl1, fm1, timelines1, out1) =>
    (emptyHandler,
     out1 ++
     (emitProp names1 .animationName .animationName context ++
      (emitProp durations1 .animationDuration .animationDuration context ++
       (emitProp tf1 .animationTimingFunction .animationTimingFunction context ++
        (emitProp ic1 .animationIterationCount .animationIterationCount context ++
         (emitProp dir1 .animationDirection .animationDirection context ++
          (emitProp ps1 .animationPlayState .animationPlayState context ++
           (emitProp dl1 .animationDelay .animationDelay context ++
            (emitProp fm1 .animationFillMode .animationFillMode context ++
             (match timelines1 with
              | some val => [Property.animationTimeline val]
              | Option.none => []))))))))))

/-- The `maybe_flush!` macro: if this category already holds a different
value under a prefix set that does not yet contain the incoming prefixes,
flush immediately to preserve order. -/
def maybeFlush [DecidableEq α] (self : AnimationHandler) (context : Ctx)
    (held : Option (α × PrefixSet)) (val : α) (vp : PrefixSet) :
    AnimationHandler × List Property :=
  match held with
  | some (v, prefixes) =>
    if v ≠ val ∧ prefixes.contains vp = false then self.flush context
    else (self, [])
  | Option.none => (self, [])

/-- The update half of the `property!` macro: overwrite the held value and
add the incoming prefixes, or start holding the value fresh. -/
def recordProp (held : Option (α × PrefixSet)) (val : α) (vp : PrefixSet) :
    Option (α × PrefixSet) :=
  match held with
  | some (_, prefixes) => some (val, prefixes.union vp)
  | Option.none => some (val, vp)

/-- Does the `property!` macro set the dirty flag: only when the category
was not yet held. -/
def recordDirty (held : Option (α × PrefixSet)) (old : Bool) : Bool :=
  match held with
  | some _ => old
  | Option.none => true

/-- The animation-name substitution applied to an unparsed `animation`
shorthand value: a bare identifier that is no keyword of a sibling
sub-grammar, or a bare string, becomes an explicit animation-name value so
that identifier scoping can see it. -/
def substTokenOrValue : TokenOrValue → TokenOrValue
  | .token (.ident id) =>
    if (directionFromString id).isNone ∧ (playStateFromString id).isNone ∧
        (fillModeFromString id).isNone ∧
        EasingFunction.isIdentStr id = false ∧
        id ≠ "infinite" ∧ id ≠ "auto" then
      .animationName (.ident id)
    else .token (.ident id)
  | .token (.str s) => .animationName (.string s)
  | t => t

/-- The rewrite `handle_property` applies to an unparsed declaration before
re-emitting it: only the `animation` shorthand identity is rewritten. -/
def substituteUnparsed (val : UnparsedProperty) : UnparsedProperty :=
  match val.property_id with
  | .animation _ => { val with value := val.value.map substTokenOrValue }
  | _ => val

/-- `AnimationHandler::handle_property`: returns whether the declaration was
handled, the successor state, and the declarations pushed to the output
list (in order). -/
def handleProperty (self : AnimationHandler) (property : Property)
    (context : Ctx) : Bool × AnimationHandler × List Property :=
  match property with
  | .animationName val vp =>
    match maybeFlush self context self.names val vp with
    | (s1, out) =>
      (true, { s1 with names := recordProp s1.names val vp,
                       has_any := recordDirty s1.names s1.has_any }, out)
  | .animationDuration val vp =>
    match maybeFlush self context self.durations val vp with
    | (s1, out) =>
      (true, { s1 with durations := recordProp s1.durations val vp,
                       has_any := recordDirty s1.durations s1.has_any }, out)
  | .animationTimingFunction val vp =>
    match maybeFlush self context self.timing_functions val vp with
    | (s1, out) =>
      (true, { s1 with timing_functions := recordProp s1.timing_functions val vp,
                       has_any := recordDirty s1.timing_functions s1.has_any }, out)
  | .animationIterationCount val vp =>
    match maybeFlush self context self.iteration_counts val vp with
    | (s1, out) =>
      (true, { s1 with iteration_counts := recordProp s1.iteration_counts val vp,
                       has_any := recordDirty s1.iteration_counts s1.has_any }, out)
  | .animationDirection val vp =>
    match maybeFlush self context self.directions val vp with
    | (s1, out) =>
      (true, { s1 with directions := recordProp s1.directions val vp,
                       has_any := recordDirty s1.directions s1.has_any }, out)
  | .animationPlayState val vp =>
    match maybeFlush self context self.play_states val vp with
    | (s1, out) =>
      (true, { s1 with play_states := recordProp s1.play_states val vp,
                       has_any := recordDirty s1.play_states s1.has_any }, out)
  | .animationDelay val vp =>
    match maybeFlush self context self.delays val vp with
    | (s1, out) =>
      (true, { s1 with delays := recordProp s1.delays val vp,
                       has_any := recordDirty s1.delays s1.has_any }, out)
  | .animationFillMode val vp =>
    match maybeFlush self context self.fill_modes val vp with
    | (s1, out) =>
      (true, { s1 with fill_modes := recordProp s1.fill_modes val vp,
                       has_any := recordDirty s1.fill_modes s1.has_any }, out)
  | .animationTimeline val =>
    (true, { self with timelines := some val, has_any := true }, [])
  | .animation val vp =>
    let names := val.map (·.name)
    match maybeFlush self context self.names names vp with
    | (s1, o1) =>
    let durations := val.map (·.duration)
    match maybeFlush s1 context s1.durations durations vp with
    | (s2, o2) =>
    let timing_functions := val.map (·.timing_function)
    match maybeFlush s2 context s2.timing_functions timing_functions vp with
    | (s3, o3) =>
    let iteration_counts := val.map (·.iteration_count)
    match maybeFlush s3 context s3.iteration_counts iteration_counts vp with
    | (s4, o4) =>
    let directions := val.map (·.direction)
    match maybeFlush s4 context s4.directions directions vp with
    | (s5, o5) =>
    let play_states := val.map (·.play_state)
    match maybeFlush s5 context s5.play_states play_states vp with
    | (s6, o6) =>
    let delays := val.map (·.delay)
    match maybeFlush s6 context s6.delays delays vp with
    | (s7, o7) =>
    let fill_modes := val.map (·.fill_mode)
    match maybeFlush s7 context s7.fill_modes fill_modes vp with
    | (s8, o8) =>
    let s9 := { s8 with timelines := some (val.map Animation.timeline) }
    let s10 := { s9 with names := recordProp s9.names names vp,
                         has_any := recordDirty s9.names s9.has_any }
    let s11 := { s10 with durations := recordProp s10.durations durations vp,
                          has_any := recordDirty s10.durations s10.has_any }
    let s12 := { s11 with
      timing_functions := recordProp s11.timing_functions timing_functions vp,
      has_any := recordDirty s11.timing_functions s11.has_any }
    let s13 := { s12 with
      iteration_counts := recordProp s12.iteration_counts iteration_counts vp,
      has_any := recordDirty s12.iteration_counts s12.has_any }
    let s14 := { s13 with directions := recordProp s13.directions directions vp,
                          has_any := recordDirty s13.directions s13.has_any }
    let s15 := { s14 with play_states := recordProp s14.play_states play_states vp,
                          has_any := recordDirty s14.play_states s14.has_any }
    let s16 := { s15 with delays := recordProp s15.delays delays vp,
                          has_any := recordDirty s15.delays s15.has_any }
    let s17 := { s16 with fill_modes := recordProp s16.fill_modes fill_modes vp,
                          has_any := recordDirty s16.fill_modes s16.has_any }
    (true, s17, o1 ++ (o2 ++ (o3 ++ (o4 ++ (o5 ++ (o6 ++ (o7 ++ o8)))))))
  | .unparsed val =>
    if isAnimationProperty val.property_id then
      let val2 := substituteUnparsed val
      match self.flush context with
      | (s1, out) =>
        (true, s1,
         out ++ [Property.unparsed (context.targets.getPrefixed val2 .animation)])
    else (false, self, [])
  | _ => (false, self, [])

/-- `AnimationHandler::finalize`: one last flush at block end. -/
def AnimationHandler.finalize (self : AnimationHandler) (context : Ctx) :
    AnimationHandler × List Property :=
  self.flush context

/-! ## Lemmas and claim theorems for the reconciliation engine -/

/-- When the dirty flag is set, a flush always clears the handler. -/
theorem flush_fst (self : AnimationHandler) (context : Ctx)
    (h : self.has_any = true) : (self.flush context).1 = emptyHandler := by
  simp [AnimationHandler.flush, h]

/-- Is a declaration the `animation` shorthand? -/
def isShorthandDecl : Property → Bool
  | .animation _ _ => true
  | _ => false

/-- A handler state holding all eight required categories with list length
two, every category unprefixed, and no timeline category held. -/
def fullState2 : AnimationHandler :=
  { names := some ([AnimationName.ident "a", AnimationName.ident "b"], PrefixSet.N),
    durations := some ([(1 : Time), (2 : Time)], PrefixSet.N),
    timing_functions := some ([EasingFunction.ease, EasingFunction.linear], PrefixSet.N),
    iteration_counts := some ([AnimationIterationCount.number 1,
                               AnimationIterationCount.infinite], PrefixSet.N),
    directions := some ([AnimationDirection.normal, AnimationDirection.reverse], PrefixSet.N),
    play_states := some ([AnimationPlayState.running, AnimationPlayState.paused], PrefixSet.N),
    delays := some ([(0 : Time), (3 : Time)], PrefixSet.N),
    fill_modes := some ([AnimationFillMode.none, AnimationFillMode.both], PrefixSet.N),
    timelines := Option.none,
    has_any := true }

/-- Claim C2, at the failing input: in `fullState2` all eight required
longhand categories hold lists of equal length 2 and the intersection of
their prefix sets is the non-empty unprefixed set, yet `flush` emits only
the eight longhand declarations and no shorthand — because with no held
timeline list and an intersection containing the unprefixed member the code
substitutes an empty timeline list, whose length 0 fails the length guard. -/
theorem flush_equal_lengths_no_shorthand :
    (fullState2.flush idCtx).2 =
      [Property.animationName [AnimationName.ident "a", AnimationName.ident "b"] PrefixSet.N,
       Property.animationDuration [(1 : Time), (2 : Time)] PrefixSet.N,
       Property.animationTimingFunction [EasingFunction.ease, EasingFunction.linear] PrefixSet.N,
       Property.animationIterationCount [AnimationIterationCount.number 1,
         AnimationIterationCount.infinite] PrefixSet.N,
       Property.animationDirection [AnimationDirection.normal,
         AnimationDirection.reverse] PrefixSet.N,
       Property.animationPlayState [AnimationPlayState.running,
         AnimationPlayState.paused] PrefixSet.N,
       Property.animationDelay [(0 : Time), (3 : Time)] PrefixSet.N,
       Property.animationFillMode [AnimationFillMode.none,
         AnimationFillMode.both] PrefixSet.N] ∧
    ((fullState2.flush idCtx).2.all fun p => isShorthandDecl p = false) := by
  exact ⟨rfl, by decide⟩

/-- The entry the C3 block should collapse to. -/
def c3Entry : Animation :=
  { animationDefault with name := .ident "ease", duration := 2 }

/-- The handler state after `animation-name: ease; animation-duration: 2s;`
with the other six required categories held at their defaults, everything
unprefixed. -/
def c3State : AnimationHandler :=
  { names := some ([AnimationName.ident "ease"], PrefixSet.N),
    durations := some ([(2 : Time)], PrefixSet.N),
    timing_functions := some ([EasingFunction.ease], PrefixSet.N),
    iteration_counts := some ([AnimationIterationCount.number 1], PrefixSet.N),
    directions := some ([AnimationDirection.normal], PrefixSet.N),
    play_states := some ([AnimationPlayState.running], PrefixSet.N),
    delays := some ([(0 : Time)], PrefixSet.N),
    fill_modes := some ([AnimationFillMode.none], PrefixSet.N),
    timelines := Option.none,
    has_any := true }

/-- Claim C3, at the failing input: flushing `c3State` emits the eight
longhand declarations and no `animation` shorthand (same guard failure as
in `flush_equal_lengths_no_shorthand`), even though the entry it should
collapse to serializes to exactly `2s ease ease` (timing-function printed
explicitly because the name text `ease` parses as an easing identifier). -/
theorem flush_c3_state_no_shorthand :
    (c3State.flush idCtx).2 =
      [Property.animationName [AnimationName.ident "ease"] PrefixSet.N,
       Property.animationDuration [(2 : Time)] PrefixSet.N,
       Property.animationTimingFunction [EasingFunction.ease] PrefixSet.N,
       Property.animationIterationCount [AnimationIterationCount.number 1] PrefixSet.N,
       Property.animationDirection [AnimationDirection.normal] PrefixSet.N,
       Property.animationPlayState [AnimationPlayState.running] PrefixSet.N,
       Property.animationDelay [(0 : Time)] PrefixSet.N,
       Property.animationFillMode [AnimationFillMode.none] PrefixSet.N] ∧
    Animation.toCss c3Entry = [Tok.time 2, Tok.ident "ease", Tok.ident "ease"] := by
  exact ⟨rfl, rfl⟩

/-- One typed longhand declaration of the eight required categories,
together with its value payload. -/
inductive LonghandDecl where
  | name (v : List AnimationName)
  | duration (v : List Time)
  | timingFunction (v : List EasingFunction)
  | iterationCount (v : List AnimationIterationCount)
  | direction (v : List AnimationDirection)
  | playState (v : List AnimationPlayState)
  | delay (v : List Time)
  | fillMode (v : List AnimationFillMode)

/-- The `Property` carrying a longhand declaration under a prefix set. -/
def LonghandDecl.toProperty : LonghandDecl → PrefixSet → Property
  | .name v, vp => .animationName v vp
  | .duration v, vp => .animationDuration v vp
  | .timingFunction v, vp => .animationTimingFunction v vp
  | .iterationCount v, vp => .animationIterationCount v vp
  | .direction v, vp => .animationDirection v vp
  | .playState v, vp => .animationPlayState v vp
  | .delay v, vp => .animationDelay v vp
  | .fillMode v, vp => .animationFillMode v vp

/-- Does the handler hold, in the category of this longhand, a different
value under a prefix set not containing the incoming prefixes (the
disagreement that must force a flush)? -/
def LonghandDecl.conflictsB (self : AnimationHandler) :
    LonghandDecl → PrefixSet → Bool
  | .name v, vp =>
    match self.names with
    | some (cur, ps) => decide (cur ≠ v) && !(ps.contains vp)
    | Option.none => false
  | .duration v, vp =>
    match self.durations with
    | some (cur, ps) => decide (cur ≠ v) && !(ps.contains vp)
    | Option.none => false
  | .timingFunction v, vp =>
    match self.timing_functions with
    | some (cur, ps) => decide (cur ≠ v) && !(ps.contains vp)
    | Option.none => false
  | .iterationCount v, vp =>
    match self.iteration_counts with
    | some (cur, ps) => decide (cur ≠ v) && !(ps.contains vp)
    | Option.none => false
  | .direction v, vp =>
    match self.directions with
    | some (cur, ps) => decide (cur ≠ v) && !(ps.contains vp)
    | Option.none => false
  | .playState v, vp =>
    match self.play_states with
    | some (cur, ps) => decide (cur ≠ v) && !(ps.contains vp)
    | Option.none => false
  | .delay v, vp =>
    match self.delays with
    | some (cur, ps) => decide (cur ≠ v) && !(ps.contains vp)
    | Option.none => false
  | .fillMode v, vp =>
    match self.fill_modes with
    | some (cur, ps) => decide (cur ≠ v) && !(ps.contains vp)
    | Option.none => false

/-- The handler that holds exactly this longhand's value under exactly the
incoming prefixes (the state an otherwise-empty handler reaches after
recording it). -/
def LonghandDecl.recordFresh : LonghandDecl → PrefixSet → AnimationHandler
  | .name v, vp => { emptyHandler with names := some (v, vp), has_any := true }
  | .duration v, vp => { emptyHandler with durations := some (v, vp), has_any := true }
  | .timingFunction v, vp =>
    { emptyHandler with timing_functions := some (v, vp), has_any := true }
  | .iterationCount v, vp =>
    { emptyHandler with iteration_counts := some (v, vp), has_any := true }
  | .direction v, vp => { emptyHandler with directions := some (v, vp), has_any := true }
  | .playState v, vp => { emptyHandler with play_states := some (v, vp), has_any := true }
  | .delay v, vp => { emptyHandler with delays := some (v, vp), has_any := true }
  | .fillMode v, vp => { emptyHandler with fill_modes := some (v, vp), has_any := true }

/-- Claim C4: whenever a longhand arrives whose value differs from the held
value of its category and whose prefix set is not contained in the held
prefix set, `handle_property` flushes the whole accumulated state first
(the flush output precedes everything) and only then records the new value
— so afterwards the category holds exactly the new value under exactly the
new prefixes, preserving the invariant that all recorded prefixes belong to
the currently held value. -/
theorem handle_property_conflict_flushes_first
    (self : AnimationHandler) (context : Ctx) (d : LonghandDecl)
    (vp : PrefixSet) (hdirty : self.has_any = true)
    (hconf : d.conflictsB self vp = true) :
    handleProperty self (d.toProperty vp) context =
      (true, d.recordFresh vp, (self.flush context).2) := by
  cases d with
  | name v =>
    cases hs : self.names with
    | none => simp [LonghandDecl.conflictsB, hs] at hconf
    | some pr =>
      obtain ⟨cur, ps⟩ := pr
      simp only [LonghandDecl.conflictsB, hs, Bool.and_eq_true, decide_eq_true_eq,
        Bool.not_eq_true'] at hconf
      obtain ⟨h1, h2⟩ := hconf
      simp [LonghandDecl.toProperty, handleProperty, hs, maybeFlush, h1, h2,
        flush_fst self context hdirty, LonghandDecl.recordFresh, recordProp,
        recordDirty, emptyHandler]
  | duration v =>
    cases hs : self.durations with
    | none => simp [LonghandDecl.conflictsB, hs] at hconf
    | some pr =>
      obtain ⟨cur, ps⟩ := pr
      simp only [LonghandDecl.conflictsB, hs, Bool.and_eq_true, decide_eq_true_eq,
        Bool.not_eq_true'] at hconf
      obtain ⟨h1, h2⟩ := hconf
      simp [LonghandDecl.toProperty, handleProperty, hs, maybeFlush, h1, h2,
        flush_fst self context hdirty, LonghandDecl.recordFresh, recordProp,
        recordDirty, emptyHandler]
  | timingFunction v =>
    cases hs : self.timing_functions with
    | none => simp [LonghandDecl.conflictsB, hs] at hconf
    | some pr =>
      obtain ⟨cur, ps⟩ := pr
      simp only [LonghandDecl.conflictsB, hs, Bool.and_eq_true, decide_eq_true_eq,
        Bool.not_eq_true'] at hconf
      obtain ⟨h1, h2⟩ := hconf
      simp [LonghandDecl.toProperty, handleProperty, hs, maybeFlush, h1, h2,
        flush_fst self context hdirty, LonghandDecl.recordFresh, recordProp,
        recordDirty, emptyHandler]
  | iterationCount v =>
    cases hs : self.iteration_counts with
    | none => simp [LonghandDecl.conflictsB, hs] at hconf
    | some pr =>
      obtain ⟨cur, ps⟩ := pr
      simp only [LonghandDecl.conflictsB, hs, Bool.and_eq_true, decide_eq_true_eq,
        Bool.not_eq_true'] at hconf
      obtain ⟨h1, h2⟩ := hconf
      simp [LonghandDecl.toProperty, handleProperty, hs, maybeFlush, h1, h2,
        flush_fst self context hdirty, LonghandDecl.recordFresh, recordProp,
        recordDirty, emptyHandler]
  | direction v =>
    cases hs : self.directions with
    | none => simp [LonghandDecl.conflictsB, hs] at hconf
    | some pr =>
      obtain ⟨cur, ps⟩ := pr
      simp only [LonghandDecl.conflictsB, hs, Bool.and_eq_true, decide_eq_true_eq,
        Bool.not_eq_true'] at hconf
      obtain ⟨h1, h2⟩ := hconf
      simp [LonghandDecl.toProperty, handleProperty, hs, maybeFlush, h1, h2,
        flush_fst self context hdirty, LonghandDecl.recordFresh, recordProp,
        recordDirty, emptyHandler]
  | playState v =>
    cases hs : self.play_states with
    | none => simp [LonghandDecl.conflictsB, hs] at hconf
    | some pr =>
      obtain ⟨cur, ps⟩ := pr
      simp only [LonghandDecl.conflictsB, hs, Bool.and_eq_true, decide_eq_true_eq,
        Bool.not_eq_true'] at hconf
      obtain ⟨h1, h2⟩ := hconf
      simp [LonghandDecl.toProperty, handleProperty, hs, maybeFlush, h1, h2,
        flush_fst self context hdirty, LonghandDecl.recordFresh, recordProp,
        recordDirty, emptyHandler]
  | delay v =>
    cases hs : self.delays with
    | none => simp [LonghandDecl.conflictsB, hs] at hconf
    | some pr =>
      obtain ⟨cur, ps⟩ := pr
      simp only [LonghandDecl.conflictsB, hs, Bool.and_eq_true, decide_eq_true_eq,
        Bool.not_eq_true'] at hconf
      obtain ⟨h1, h2⟩ := hconf
      simp [LonghandDecl.toProperty, handleProperty, hs, maybeFlush, h1, h2,
        flush_fst self context hdirty, LonghandDecl.recordFresh, recordProp,
        recordDirty, emptyHandler]
  | fillMode v =>
    cases hs : self.fill_modes with
    | none => simp [LonghandDecl.conflictsB, hs] at hconf
    | some pr =>
      obtain ⟨cur, ps⟩ := pr
      simp only [LonghandDecl.conflictsB, hs, Bool.and_eq_true, decide_eq_true_eq,
        Bool.not_eq_true'] at hconf
      obtain ⟨h1, h2⟩ := hconf
      simp [LonghandDecl.toProperty, handleProperty, hs, maybeFlush, h1, h2,
        flush_fst self context hdirty, LonghandDecl.recordFresh, recordProp,
        recordDirty, emptyHandler]

/-- Concrete instance for `handle_property_conflict_flushes_first`: a held
unprefixed `1s` duration, an incoming WebKit-prefixed `2s` duration. -/
def c4State : AnimationHandler :=
  { durations := some ([(1 : Time)], PrefixSet.N), has_any := true }

/-- Witness for `handle_property_conflict_flushes_first` at `c4State`. -/
theorem handle_property_conflict_flushes_first_witness :
    c4State.has_any = true ∧
    LonghandDecl.conflictsB c4State (.duration [(2 : Time)]) PrefixSet.WK = true ∧
    handleProperty c4State ((LonghandDecl.duration [(2 : Time)]).toProperty PrefixSet.WK) idCtx =
      (true, (LonghandDecl.duration [(2 : Time)]).recordFresh PrefixSet.WK,
       (c4State.flush idCtx).2) :=
  ⟨rfl, by decide,
   handle_property_conflict_flushes_first c4State idCtx
     (.duration [(2 : Time)]) PrefixSet.WK rfl (by decide)⟩

/-- Claim C5: the three duration declarations `1s` (unprefixed), `2s`
(WebKit-prefixed), `3s` (unprefixed), processed in order and finalized,
produce exactly three duration emissions in the same relative order, for
every targets oracle. -/
theorem duration_prefix_conflict_order_preserved (context : Ctx) :
    (let r1 := handleProperty emptyHandler
      (.animationDuration [(1 : Time)] PrefixSet.N) context
     let r2 := handleProperty r1.2.1
      (.animationDuration [(2 : Time)] PrefixSet.WK) context
     let r3 := handleProperty r2.2.1
      (.animationDuration [(3 : Time)] PrefixSet.N) context
     let rf := r3.2.1.finalize context
     r1.2.2 ++ (r2.2.2 ++ (r3.2.2 ++ rf.2))) =
    [Property.animationDuration [(1 : Time)]
       (context.targets.prefixes PrefixSet.N .animationDuration),
     Property.animationDuration [(2 : Time)]
       (context.targets.prefixes PrefixSet.WK .animationDuration),
     Property.animationDuration [(3 : Time)]
       (context.targets.prefixes PrefixSet.N .animationDuration)] := rfl

/-- Claim C6: an unparsed declaration of the animation family always
triggers exactly one flush of the accumulated state, after which exactly
one unparsed declaration (name-substituted when it is the shorthand, then
prefix-expanded by the external collaborator) is pushed; the post state is
exactly the flushed state, so the unparsed value is never merged. -/
theorem unparsed_flushes_once_and_reemits
    (self : AnimationHandler) (context : Ctx) (u : UnparsedProperty)
    (h : isAnimationProperty u.property_id = true) :
    handleProperty self (.unparsed u) context =
      (true, (self.flush context).1,
       (self.flush context).2 ++
         [Property.unparsed
           (context.targets.getPrefixed (substituteUnparsed u) .animation)]) := by
  simp [handleProperty, h]

/-- Concrete unparsed duration declaration for the C6 witness. -/
def c6Unparsed : UnparsedProperty :=
  { property_id := .animationDuration PrefixSet.N,
    value := [.token (.ident "calc-ish")] }

/-- Witness for `unparsed_flushes_once_and_reemits` at an empty handler. -/
theorem unparsed_flushes_once_and_reemits_witness :
    isAnimationProperty c6Unparsed.property_id = true ∧
    handleProperty emptyHandler (.unparsed c6Unparsed) idCtx =
      (true, (emptyHandler.flush idCtx).1,
       (emptyHandler.flush idCtx).2 ++
         [Property.unparsed
           (idCtx.targets.getPrefixed (substituteUnparsed c6Unparsed) .animation)]) :=
  ⟨rfl, unparsed_flushes_once_and_reemits emptyHandler idCtx c6Unparsed rfl⟩

/-- Claim C7: an entry whose name is `none` serializes to exactly the
single `none` identifier, whatever the other eight fields hold. -/
theorem to_css_none_name_prints_only_none (a : Animation)
    (h : a.name = .none) : a.toCss = [Tok.ident "none"] := by
  simp [Animation.toCss, h, AnimationName.toTok]

/-- Witness for `to_css_none_name_prints_only_none` at an entry with every
other field non-default. -/
theorem to_css_none_name_prints_only_none_witness :
    ({ name := .none, duration := 5, timing_function := .linear,
       iteration_count := .infinite, direction := .reverse,
       play_state := .paused, delay := 7, fill_mode := .both,
       timeline := .none : Animation }).name = AnimationName.none ∧
    ({ name := .none, duration := 5, timing_function := .linear,
       iteration_count := .infinite, direction := .reverse,
       play_state := .paused, delay := 7, fill_mode := .both,
       timeline := .none : Animation }).toCss = [Tok.ident "none"] :=
  ⟨rfl, to_css_none_name_prints_only_none _ rfl⟩

/-- Claim C8: the two `scroll()` arguments are accepted in either order and
are each optional, unspecified arguments taking the defaults
(scroller `nearest`, axis `block`); in particular `block root` and
`root block` parse to the identical value. -/
theorem scroll_timeline_arg_order_independent :
    (scrollTimelineParse [Tok.ident "block", Tok.ident "root"] =
       ({ scroller := .root, axis := .block }, []) ∧
     scrollTimelineParse [Tok.ident "root", Tok.ident "block"] =
       ({ scroller := .root, axis := .block }, [])) ∧
    (∀ sc ax,
      scrollTimelineParse [Tok.ident (Scroller.toKw sc), Tok.ident (ScrollAxis.toKw ax)] =
        scrollTimelineParse [Tok.ident (ScrollAxis.toKw ax), Tok.ident (Scroller.toKw sc)] ∧
      scrollTimelineParse [Tok.ident (Scroller.toKw sc), Tok.ident (ScrollAxis.toKw ax)] =
        ({ scroller := sc, axis := ax }, [])) ∧
    scrollTimelineParse [] = ({ scroller := .nearest, axis := .block }, []) ∧
    (∀ sc, scrollTimelineParse [Tok.ident (Scroller.toKw sc)] =
      ({ scroller := sc, axis := .block }, [])) ∧
    (∀ ax, scrollTimelineParse [Tok.ident (ScrollAxis.toKw ax)] =
      ({ scroller := .nearest, axis := ax }, [])) := by
  refine ⟨⟨rfl, rfl⟩, fun sc ax => ?_, rfl, fun sc => ?_, fun ax => ?_⟩ <;>
    first
    | (cases sc <;> cases ax <;> exact ⟨rfl, rfl⟩)
    | (cases sc <;> rfl)
    | (cases ax <;> rfl)

/-- Claim C9: a typed (non-unparsed) animation-composition declaration is
not handled: `handle_property` returns false and leaves both the
accumulated state and the output untouched, although `is_animation_property`
counts `AnimationComposition` as part of this family. -/
theorem typed_animation_composition_unhandled
    (self : AnimationHandler) (context : Ctx) (v : List AnimationComposition) :
    handleProperty self (.animationComposition v) context = (false, self, []) ∧
    isAnimationProperty PropertyId.animationComposition = true :=
  ⟨rfl, rfl⟩

/-- Claim C10: an animation-timeline longhand unconditionally replaces the
held timeline list and sets the dirty flag, emitting nothing, flushing
nothing, and leaving every other field unchanged. -/
theorem timeline_longhand_replaces_without_flush
    (self : AnimationHandler) (context : Ctx) (v : List AnimationTimeline) :
    handleProperty self (.animationTimeline v) context =
      (true, { self with timelines := some v, has_any := true }, []) := rfl

/-! ## Round-trip machinery for the shorthand codec -/

/-- One successful pass consumes its token: the loop steps. -/
theorem parseRun_cons (s s2 : ParseSlots) (t : Tok) (rest : List Tok)
    (h : tryPass s (t :: rest) = some (s2, rest)) :
    parseRun s (t :: rest) = parseRun s2 rest := by
  simp [parseRun, parseGo, h]

/-- A pass over no tokens fails. -/
theorem tryPass_nil (s : ParseSlots) : tryPass s [] = Option.none := by
  simp [tryPass, timeParse, easingParse, iterationCountParse, directionParse,
    fillModeParse, playStateParse, animationNameParse, animationTimelineParse]

/-- The loop exits on an empty token list. -/
theorem parseRun_nil (s : ParseSlots) : parseRun s [] = (s, []) := by
  simp [parseRun, parseGo, tryPass_nil]

/-! ## Parser facts for the round-trip proof -/

@[simp] theorem timeParse_ident (s : String) (r : List Tok) :
    timeParse (.ident s :: r) = Option.none := rfl
@[simp] theorem timeParse_str (s : String) (r : List Tok) :
    timeParse (.str s :: r) = Option.none := rfl
@[simp] theorem timeParse_num (n : CSSNumber) (r : List Tok) :
    timeParse (.num n :: r) = Option.none := rfl
@[simp] theorem timeParse_func (f : String) (args r : List Tok) :
    timeParse (.func f args :: r) = Option.none := rfl
@[simp] theorem timeParse_time (t : Time) (r : List Tok) :
    timeParse (.time t :: r) = some (t, r) := rfl

@[simp] theorem easingParse_time (t : Time) (r : List Tok) :
    easingParse (.time t :: r) = Option.none := rfl
@[simp] theorem easingParse_str (s : String) (r : List Tok) :
    easingParse (.str s :: r) = Option.none := rfl
@[simp] theorem easingParse_num (n : CSSNumber) (r : List Tok) :
    easingParse (.num n :: r) = Option.none := rfl
@[simp] theorem easingParse_func (f : String) (args r : List Tok) :
    easingParse (.func f args :: r) = Option.none := rfl

@[simp] theorem iterParse_time (t : Time) (r : List Tok) :
    iterationCountParse (.time t :: r) = Option.none := rfl
@[simp] theorem iterParse_str (s : String) (r : List Tok) :
    iterationCountParse (.str s :: r) = Option.none := rfl
@[simp] theorem iterParse_func (f : String) (args r : List Tok) :
    iterationCountParse (.func f args :: r) = Option.none := rfl
@[simp] theorem iterParse_num (k : CSSNumber) (r : List Tok) :
    iterationCountParse (.num k :: r) = some (.number k, r) := rfl

@[simp] theorem directionParse_time (t : Time) (r : List Tok) :
    directionParse (.time t :: r) = Option.none := rfl
@[simp] theorem directionParse_str (s : String) (r : List Tok) :
    directionParse (.str s :: r) = Option.none := rfl
@[simp] theorem directionParse_num (n : CSSNumber) (r : List Tok) :
    directionParse (.num n :: r) = Option.none := rfl
@[simp] theorem directionParse_func (f : String) (args r : List Tok) :
    directionParse (.func f args :: r) = Option.none := rfl

@[simp] theorem fillModeParse_time (t : Time) (r : List Tok) :
    fillModeParse (.time t :: r) = Option.none := rfl
@[simp] theorem fillModeParse_str (s : String) (r : List Tok) :
    fillModeParse (.str s :: r) = Option.none := rfl
@[simp] theorem fillModeParse_num (n : CSSNumber) (r : List Tok) :
    fillModeParse (.num n :: r) = Option.none := rfl
@[simp] theorem fillModeParse_func (f : String) (args r : List Tok) :
    fillModeParse (.func f args :: r) = Option.none := rfl

@[simp] theorem playStateParse_time (t : Time) (r : List Tok) :
    playStateParse (.time t :: r) = Option.none := rfl
@[simp] theorem playStateParse_str (s : String) (r : List Tok) :
    playStateParse (.str s :: r) = Option.none := rfl
@[simp] theorem playStateParse_num (n : CSSNumber) (r : List Tok) :
    playStateParse (.num n :: r) = Option.none := rfl
@[simp] theorem playStateParse_func (f : String) (args r : List Tok) :
    playStateParse (.func f args :: r) = Option.none := rfl

@[simp] theorem nameParse_time (t : Time) (r : List Tok) :
    animationNameParse (.time t :: r) = Option.none := rfl
@[simp] theorem nameParse_num (n : CSSNumber) (r : List Tok) :
    animationNameParse (.num n :: r) = Option.none := rfl
@[simp] theorem nameParse_func (f : String) (args r : List Tok) :
    animationNameParse (.func f args :: r) = Option.none := rfl
@[simp] theorem nameParse_str (s : String) (r : List Tok) :
    animationNameParse (.str s :: r) = some (.string s, r) := rfl

theorem easingParse_toKw (v : EasingFunction) (r : List Tok) :
    easingParse (.ident (EasingFunction.toKw v) :: r) = some (v, r) := by
  cases v <;> rfl
theorem easingParse_dirKw (v : AnimationDirection) (r : List Tok) :
    easingParse (.ident v.toKw :: r) = Option.none := by cases v <;> rfl
theorem easingParse_fillKw (v : AnimationFillMode) (r : List Tok) :
    easingParse (.ident v.toKw :: r) = Option.none := by cases v <;> rfl
theorem easingParse_playKw (v : AnimationPlayState) (r : List Tok) :
    easingParse (.ident v.toKw :: r) = Option.none := by cases v <;> rfl
theorem easingParse_infinite (r : List Tok) :
    easingParse (.ident "infinite" :: r) = Option.none := rfl

theorem iterParse_infinite (r : List Tok) :
    iterationCountParse (.ident "infinite" :: r) = some (.infinite, r) := rfl
theorem iterParse_dirKw (v : AnimationDirection) (r : List Tok) :
    iterationCountParse (.ident v.toKw :: r) = Option.none := by cases v <;> rfl
theorem iterParse_fillKw (v : AnimationFillMode) (r : List Tok) :
    iterationCountParse (.ident v.toKw :: r) = Option.none := by cases v <;> rfl
theorem iterParse_playKw (v : AnimationPlayState) (r : List Tok) :
    iterationCountParse (.ident v.toKw :: r) = Option.none := by cases v <;> rfl

theorem directionParse_toKw (v : AnimationDirection) (r : List Tok) :
    directionParse (.ident v.toKw :: r) = some (v, r) := by cases v <;> rfl
theorem directionParse_fillKw (v : AnimationFillMode) (r : List Tok) :
    directionParse (.ident v.toKw :: r) = Option.none := by cases v <;> rfl
theorem directionParse_playKw (v : AnimationPlayState) (r : List Tok) :
    directionParse (.ident v.toKw :: r) = Option.none := by cases v <;> rfl

theorem fillModeParse_toKw (v : AnimationFillMode) (r : List Tok) :
    fillModeParse (.ident v.toKw :: r) = some (v, r) := by cases v <;> rfl
theorem fillModeParse_playKw (v : AnimationPlayState) (r : List Tok) :
    fillModeParse (.ident v.toKw :: r) = Option.none := by cases v <;> rfl

theorem playStateParse_toKw (v : AnimationPlayState) (r : List Tok) :
    playStateParse (.ident v.toKw :: r) = some (v, r) := by cases v <;> rfl

theorem easingParse_ident_none {nm : String} {r : List Tok}
    (h : easingFromString nm = Option.none) :
    easingParse (.ident nm :: r) = Option.none := by
  simp [easingParse, h]

theorem directionParse_ident_none {nm : String} {r : List Tok}
    (h : directionFromString nm = Option.none) :
    directionParse (.ident nm :: r) = Option.none := by
  simp [directionParse, h]

theorem fillModeParse_ident_none {nm : String} {r : List Tok}
    (h : fillModeFromString nm = Option.none) :
    fillModeParse (.ident nm :: r) = Option.none := by
  simp [fillModeParse, h]

theorem playStateParse_ident_none {nm : String} {r : List Tok}
    (h : playStateFromString nm = Option.none) :
    playStateParse (.ident nm :: r) = Option.none := by
  simp [playStateParse, h]

theorem iterParse_ident_notInf {nm : String} {r : List Tok}
    (h : ¬ asciiLowerStr nm = "infinite") :
    iterationCountParse (.ident nm :: r) = Option.none := by
  simp [iterationCountParse, h]

theorem nameParse_ident_valid {nm : String} {r : List Tok}
    (h1 : ¬ asciiLowerStr nm = "none") (h2 : isValidCustomIdent nm = true) :
    animationNameParse (.ident nm :: r) = some (.ident nm, r) := by
  simp [animationNameParse, customIdentParse, h1, h2]

/-! Slot contents of the filled parse state, per printed field -/

def oDur (du dl : Time) : Option Time :=
  if ¬ du = 0 ∨ ¬ dl = 0 then some du else Option.none

def oTim (tf : EasingFunction) (n : String) : Option EasingFunction :=
  if ¬ tf = .ease ∨ EasingFunction.isIdentStr n then some tf else Option.none

def oDel (dl : Time) : Option Time :=
  if ¬ dl = 0 then some dl else Option.none

def oIter (ic : AnimationIterationCount) (n : String) :
    Option AnimationIterationCount :=
  if ¬ ic = .number 1 ∨ n = "infinite" then some ic else Option.none

def oDir (di : AnimationDirection) (n : String) : Option AnimationDirection :=
  if ¬ di = .normal ∨ (directionFromString n).isSome then some di
  else Option.none

def oFill (fm : AnimationFillMode) (n : String) : Option AnimationFillMode :=
  if ¬ fm = .none ∨ (¬ ciEq n "none" = true ∧ (fillModeFromString n).isSome) then
    some fm else Option.none

def oPlay (ps : AnimationPlayState) (n : String) : Option AnimationPlayState :=
  if ¬ ps = .running ∨ (playStateFromString n).isSome then some ps
  else Option.none

def oTl (tl : AnimationTimeline) : Option AnimationTimeline :=
  if tl ≠ .auto then some tl else Option.none

theorem chunkDur (du dl : Time) (s : ParseSlots) (rest : List Tok)
    (hslot : s.duration = Option.none) :
    parseRun s ((if ¬ du = 0 ∨ ¬ dl = 0 then [Tok.time du] else []) ++ rest) =
    parseRun { s with duration := oDur du dl } rest := by
  by_cases hc : ¬ du = 0 ∨ ¬ dl = 0
  · rw [if_pos hc, List.singleton_append,
      parseRun_cons s { s with duration := some du } _ rest
        (by simp [tryPass, hslot])]
    rw [oDur, if_pos hc]
  · rw [if_neg hc, List.nil_append]
    have he : { s with duration := oDur du dl } = s := by
      rw [oDur, if_neg hc, ← hslot]
    rw [he]

theorem chunkTim (tf : EasingFunction) (n : String) (s : ParseSlots)
    (rest : List Tok) (hslot : s.timing_function = Option.none) :
    parseRun s ((if ¬ tf = .ease ∨ EasingFunction.isIdentStr n then
        [Tok.ident tf.toKw] else []) ++ rest) =
    parseRun { s with timing_function := oTim tf n } rest := by
  by_cases hc : ¬ tf = .ease ∨ EasingFunction.isIdentStr n
  · rw [if_pos hc, List.singleton_append,
      parseRun_cons s { s with timing_function := some tf } _ rest
        (by simp [tryPass, hslot, easingParse_toKw])]
    rw [oTim, if_pos hc]
  · rw [if_neg hc, List.nil_append]
    have he : { s with timing_function := oTim tf n } = s := by
      rw [oTim, if_neg hc, ← hslot]
    rw [he]

theorem chunkDel (dl : Time) (s : ParseSlots) (rest : List Tok)
    (hds : ¬ dl = 0 → s.duration.isSome = true)
    (hslot : s.delay = Option.none) :
    parseRun s ((if ¬ dl = 0 then [Tok.time dl] else []) ++ rest) =
    parseRun { s with delay := oDel dl } rest := by
  by_cases hc : ¬ dl = 0
  · rw [if_pos hc, List.singleton_append,
      parseRun_cons s { s with delay := some dl } _ rest
        (by simp [tryPass, hds hc, hslot])]
    rw [oDel, if_pos hc]
  · rw [if_neg hc, List.nil_append]
    have he : { s with delay := oDel dl } = s := by
      rw [oDel, if_neg hc, ← hslot]
    rw [he]

theorem chunkIter (ic : AnimationIterationCount) (n : String) (s : ParseSlots)
    (rest : List Tok) (hslot : s.iteration_count = Option.none) :
    parseRun s ((if ¬ ic = .number 1 ∨ n = "infinite" then [ic.toTok] else []) ++ rest) =
    parseRun { s with iteration_count := oIter ic n } rest := by
  by_cases hc : ¬ ic = .number 1 ∨ n = "infinite"
  · rw [if_pos hc, List.singleton_append,
      parseRun_cons s { s with iteration_count := some ic } _ rest ?step]
    · rw [oIter, if_pos hc]
    · cases ic <;>
        simp [tryPass, AnimationIterationCount.toTok, hslot, easingParse_infinite,
          iterParse_infinite]
  · rw [if_neg hc, List.nil_append]
    have he : { s with iteration_count := oIter ic n } = s := by
      rw [oIter, if_neg hc, ← hslot]
    rw [he]

theorem chunkDir (di : AnimationDirection) (n : String) (s : ParseSlots)
    (rest : List Tok) (hslot : s.direction = Option.none) :
    parseRun s ((if ¬ di = .normal ∨ (directionFromString n).isSome then
        [Tok.ident di.toKw] else []) ++ rest) =
    parseRun { s with direction := oDir di n } rest := by
  by_cases hc : ¬ di = .normal ∨ (directionFromString n).isSome
  · rw [if_pos hc, List.singleton_append,
      parseRun_cons s { s with direction := some di } _ rest
        (by simp [tryPass, hslot, easingParse_dirKw, iterParse_dirKw,
          directionParse_toKw])]
    rw [oDir, if_pos hc]
  · rw [if_neg hc, List.nil_append]
    have he : { s with direction := oDir di n } = s := by
      rw [oDir, if_neg hc, ← hslot]
    rw [he]

theorem chunkFill (fm : AnimationFillMode) (n : String) (s : ParseSlots)
    (rest : List Tok) (hslot : s.fill_mode = Option.none) :
    parseRun s ((if ¬ fm = .none ∨ (¬ ciEq n "none" = true ∧ (fillModeFromString n).isSome) then
        [Tok.ident fm.toKw] else []) ++ rest) =
    parseRun { s with fill_mode := oFill fm n } rest := by
  by_cases hc : ¬ fm = .none ∨ (¬ ciEq n "none" = true ∧ (fillModeFromString n).isSome)
  · rw [if_pos hc, List.singleton_append,
      parseRun_cons s { s with fill_mode := some fm } _ rest
        (by simp [tryPass, hslot, easingParse_fillKw, iterParse_fillKw,
          directionParse_fillKw, fillModeParse_toKw])]
    rw [oFill, if_pos hc]
  · rw [if_neg hc, List.nil_append]
    have he : { s with fill_mode := oFill fm n } = s := by
      rw [oFill, if_neg hc, ← hslot]
    rw [he]

theorem chunkPlay (ps : AnimationPlayState) (n : String) (s : ParseSlots)
    (rest : List Tok) (hslot : s.play_state = Option.none) :
    parseRun s ((if ¬ ps = .running ∨ (playStateFromString n).isSome then
        [Tok.ident ps.toKw] else []) ++ rest) =
    parseRun { s with play_state := oPlay ps n } rest := by
  by_cases hc : ¬ ps = .running ∨ (playStateFromString n).isSome
  · rw [if_pos hc, List.singleton_append,
      parseRun_cons s { s with play_state := some ps } _ rest
        (by simp [tryPass, hslot, easingParse_playKw, iterParse_playKw,
          directionParse_playKw, fillModeParse_playKw, playStateParse_toKw])]
    rw [oPlay, if_pos hc]
  · rw [if_neg hc, List.nil_append]
    have he : { s with play_state := oPlay ps n } = s := by
      rw [oPlay, if_neg hc, ← hslot]
    rw [he]

theorem stepNameIdent (n : String) (s : ParseSlots) (rest : List Tok)
    (hslot : s.name = Option.none)
    (hTim : s.timing_function.isSome = true ∨ easingFromString n = Option.none)
    (hIter : s.iteration_count.isSome = true ∨ ¬ asciiLowerStr n = "infinite")
    (hDir : s.direction.isSome = true ∨ directionFromString n = Option.none)
    (hFill : s.fill_mode.isSome = true ∨ fillModeFromString n = Option.none)
    (hPlay : s.play_state.isSome = true ∨ playStateFromString n = Option.none)
    (hNone : ¬ asciiLowerStr n = "none")
    (hValid : isValidCustomIdent n = true) :
    parseRun s (Tok.ident n :: rest) =
    parseRun { s with name := some (.ident n) } rest := by
  apply parseRun_cons
  have e1 : (if s.timing_function.isSome then Option.none
      else easingParse (Tok.ident n :: rest)) = Option.none := by
    rcases hTim with h | h
    · simp [h]
    · simp [easingParse_ident_none h]
  have e2 : (if s.iteration_count.isSome then Option.none
      else iterationCountParse (Tok.ident n :: rest)) = Option.none := by
    rcases hIter with h | h
    · simp [h]
    · simp [iterParse_ident_notInf h]
  have e3 : (if s.direction.isSome then Option.none
      else directionParse (Tok.ident n :: rest)) = Option.none := by
    rcases hDir with h | h
    · simp [h]
    · simp [directionParse_ident_none h]
  have e4 : (if s.fill_mode.isSome then Option.none
      else fillModeParse (Tok.ident n :: rest)) = Option.none := by
    rcases hFill with h | h
    · simp [h]
    · simp [fillModeParse_ident_none h]
  have e5 : (if s.play_state.isSome then Option.none
      else playStateParse (Tok.ident n :: rest)) = Option.none := by
    rcases hPlay with h | h
    · simp [h]
    · simp [playStateParse_ident_none h]
  simp [tryPass, e1, e2, e3, e4, e5, hslot, nameParse_ident_valid hNone hValid]

theorem stepNameStr (t : String) (s : ParseSlots) (rest : List Tok)
    (hslot : s.name = Option.none) :
    parseRun s (Tok.str t :: rest) =
    parseRun { s with name := some (.string t) } rest := by
  apply parseRun_cons
  simp [tryPass, hslot]

theorem asciiLowerStr_data (s : String) :
    (asciiLowerStr s).data = s.data.map asciiLowerChar := rfl

theorem dashed_lower_ne {d : String} (h : isDashedStr d = true)
    (kw : String) (hkw : ¬ kw.data.head? = some '-') :
    ¬ asciiLowerStr d = kw := by
  intro he
  rcases hd : d.data with _ | ⟨c1, _ | ⟨c2, t⟩⟩ <;>
    rw [isDashedStr, hd] at h
  · exact absurd h (by simp)
  · exact absurd h (by simp)
  · simp only [Bool.and_eq_true, decide_eq_true_eq] at h
    apply hkw
    rw [← he, asciiLowerStr_data, hd, h.1, h.2]
    rfl

theorem scrollArgs_roundtrip (st : ScrollTimeline) :
    scrollTimelineParse st.argsToks = (st, []) := by
  obtain ⟨sc, ax⟩ := st
  cases sc <;> cases ax <;> rfl

@[simp] theorem lpoaParse_nil : lpoaParse [] = Option.none := rfl

@[simp] theorem size2DParse_nil : size2DParse [] = Option.none := rfl

theorem lpoaParse_toTok (v : LengthPercentageOrAuto) (r : List Tok) :
    lpoaParse (v.toTok :: r) = some (v, r) := by cases v <;> rfl

theorem scrollAxisParse_toKw (v : ScrollAxis) (r : List Tok) :
    scrollAxisParse (.ident v.toKw :: r) = some (v, r) := by cases v <;> rfl

theorem scrollAxisParse_lpoaTok (v : LengthPercentageOrAuto) (r : List Tok) :
    scrollAxisParse (v.toTok :: r) = Option.none := by cases v <;> rfl

@[simp] theorem scrollAxisParse_nil : scrollAxisParse [] = Option.none := rfl

theorem size2D_roundtrip (sz : Size2D) :
    size2DParse (size2DToToks sz) = some (sz, []) := by
  obtain ⟨a, b⟩ := sz
  by_cases hb : b = a
  · subst hb
    simp [size2DToToks, size2DParse, lpoaParse_toTok]
  · simp [size2DToToks, hb, size2DParse, lpoaParse_toTok]

theorem viewArgs_roundtrip (vt : ViewTimeline) :
    viewTimelineParse vt.argsToks = (vt, []) := by
  obtain ⟨ax, ins⟩ := vt
  by_cases hax : ax = ScrollAxis.block <;> by_cases hins : ins = (.auto, .auto)
  · subst hax; subst hins; rfl
  · subst hax
    have hargs : ViewTimeline.argsToks ⟨.block, ins⟩ = size2DToToks ins := by
      simp [ViewTimeline.argsToks, hins]
    rw [hargs]
    obtain ⟨i1, i2⟩ := ins
    rcases hsz : size2DToToks (i1, i2) with _ | ⟨tk, tks⟩
    · exact absurd hsz (by simp [size2DToToks])
    · have hfirst : tk = LengthPercentageOrAuto.toTok i1 := by
        simp [size2DToToks] at hsz
        exact hsz.1.symm
      have hax1 : scrollAxisParse (tk :: tks) = Option.none := by
        rw [hfirst]; exact scrollAxisParse_lpoaTok i1 tks
      have hsz2 : size2DParse (tk :: tks) = some ((i1, i2), []) := by
        rw [← hsz]; exact size2D_roundtrip (i1, i2)
      simp [viewTimelineParse, viewLoop, hax1, hsz2, hsz]
  · subst hins
    simp [ViewTimeline.argsToks, hax, size2DToToks, viewTimelineParse, viewLoop,
      scrollAxisParse_toKw]
  · have hargs : ViewTimeline.argsToks ⟨ax, ins⟩ =
        Tok.ident ax.toKw :: size2DToToks ins := by
      simp [ViewTimeline.argsToks, hax, hins]
    rw [hargs]
    obtain ⟨i1, i2⟩ := ins
    rcases hsz : size2DToToks (i1, i2) with _ | ⟨tk, tks⟩
    · exact absurd hsz (by simp [size2DToToks])
    · have hfirst : tk = LengthPercentageOrAuto.toTok i1 := by
        simp [size2DToToks] at hsz
        exact hsz.1.symm
      have hax1 : scrollAxisParse (tk :: tks) = Option.none := by
        rw [hfirst]; exact scrollAxisParse_lpoaTok i1 tks
      have hsz2 : size2DParse (tk :: tks) = some ((i1, i2), []) := by
        rw [← hsz]; exact size2D_roundtrip (i1, i2)
      simp [viewTimelineParse, viewLoop, scrollAxisParse_toKw, hsz, hax1, hsz2]

theorem tlParse_noneKw (r : List Tok) :
    animationTimelineParse (.ident "none" :: r) = some (.none, r) := rfl

theorem tlParse_scroll (st : ScrollTimeline) (r : List Tok) :
    animationTimelineParse (.func "scroll" st.argsToks :: r) = some (.scroll st, r) := by
  simp [animationTimelineParse, scrollArgs_roundtrip,
    show asciiLowerStr "scroll" = "scroll" from rfl]

theorem tlParse_view (vt : ViewTimeline) (r : List Tok) :
    animationTimelineParse (.func "view" vt.argsToks :: r) = some (.view vt, r) := by
  simp [animationTimelineParse, viewArgs_roundtrip,
    show asciiLowerStr "view" = "view" from rfl,
    show ¬ asciiLowerStr "view" = "scroll" from by decide]

theorem tlParse_dashed {d : String} (h : isDashedStr d = true) (r : List Tok) :
    animationTimelineParse (.ident d :: r) = some (.dashedIdent d, r) := by
  have h1 : ciEq d "auto" = false := by
    simp [ciEq, show asciiLowerStr "auto" = "auto" from rfl,
      dashed_lower_ne h "auto" (by decide)]
  have h2 : ciEq d "none" = false := by
    simp [ciEq, show asciiLowerStr "none" = "none" from rfl,
      dashed_lower_ne h "none" (by decide)]
  simp [animationTimelineParse, h1, h2, h]

/-- Every keyword rejection needed for an identifier starting with `--`. -/
theorem dashedRejects {d : String} (h : isDashedStr d = true) :
    easingFromString d = Option.none ∧ directionFromString d = Option.none ∧
    fillModeFromString d = Option.none ∧ playStateFromString d = Option.none ∧
    ¬ asciiLowerStr d = "infinite" := by
  refine ⟨?_, ?_, ?_, ?_, dashed_lower_ne h _ (by decide)⟩
  · simp [easingFromString,
      dashed_lower_ne h "linear" (by decide),
      dashed_lower_ne h "ease" (by decide),
      dashed_lower_ne h "ease-in" (by decide),
      dashed_lower_ne h "ease-out" (by decide),
      dashed_lower_ne h "ease-in-out" (by decide),
      dashed_lower_ne h "step-start" (by decide),
      dashed_lower_ne h "step-end" (by decide)]
  · simp [directionFromString,
      dashed_lower_ne h "normal" (by decide),
      dashed_lower_ne h "reverse" (by decide),
      dashed_lower_ne h "alternate" (by decide),
      dashed_lower_ne h "alternate-reverse" (by decide)]
  · simp [fillModeFromString,
      dashed_lower_ne h "none" (by decide),
      dashed_lower_ne h "forwards" (by decide),
      dashed_lower_ne h "backwards" (by decide),
      dashed_lower_ne h "both" (by decide)]
  · simp [playStateParse, playStateFromString,
      dashed_lower_ne h "running" (by decide),
      dashed_lower_ne h "paused" (by decide)]

/-- Well-formedness of a timeline value: a dashed-ident timeline really
starts with two dashes (as `DashedIdent::parse` requires). -/
def tlWf : AnimationTimeline → Prop
  | .dashedIdent d => isDashedStr d = true
  | _ => True

instance (tl : AnimationTimeline) : Decidable (tlWf tl) := by
  cases tl <;> simp only [tlWf] <;> infer_instance

theorem chunkTl (nm : AnimationName) (tl : AnimationTimeline) (s : ParseSlots)
    (hnm : nm ≠ .none)
    (hname : s.name.isSome = true)
    (hslot : s.timeline = Option.none)
    (hfill : tl = .none → s.fill_mode.isSome = true)
    (hwf : tlWf tl) :
    parseRun s (if nm ≠ .none ∧ tl ≠ .auto then tl.toToks else []) =
    ({ s with timeline := oTl tl }, []) := by
  by_cases hc : tl ≠ .auto
  · rw [if_pos ⟨hnm, hc⟩, oTl, if_pos hc]
    cases tl with
    | auto => exact absurd rfl hc
    | none =>
      rw [AnimationTimeline.toToks,
        parseRun_cons s { s with timeline := some .none } _ []
          (by simp [tryPass, hslot, hname, hfill rfl,
            show easingParse [Tok.ident "none"] = Option.none from rfl,
            show iterationCountParse [Tok.ident "none"] = Option.none from rfl,
            show directionParse [Tok.ident "none"] = Option.none from rfl,
            show playStateParse [Tok.ident "none"] = Option.none from rfl,
            tlParse_noneKw]),
        parseRun_nil]
    | dashedIdent d =>
      have hwfd : isDashedStr d = true := hwf
      obtain ⟨r1, r2, r3, r4, r5⟩ := dashedRejects hwfd
      rw [AnimationTimeline.toToks,
        parseRun_cons s { s with timeline := some (.dashedIdent d) } _ []
          (by simp [tryPass, hslot, hname, easingParse_ident_none r1,
            directionParse_ident_none r2, fillModeParse_ident_none r3,
            playStateParse_ident_none r4, iterParse_ident_notInf r5,
            tlParse_dashed hwfd]),
        parseRun_nil]
    | scroll st =>
      rw [AnimationTimeline.toToks,
        parseRun_cons s { s with timeline := some (.scroll st) } _ []
          (by simp [tryPass, hslot, hname, tlParse_scroll]),
        parseRun_nil]
    | view vt =>
      rw [AnimationTimeline.toToks,
        parseRun_cons s { s with timeline := some (.view vt) } _ []
          (by simp [tryPass, hslot, hname, tlParse_view]),
        parseRun_nil]
  · rw [oTl, if_neg hc]
    have hcc : ¬ (nm ≠ .none ∧ tl ≠ .auto) := fun hx => hc hx.2
    rw [if_neg hcc]
    have he : { s with timeline := (Option.none : Option AnimationTimeline) } = s := by
      rw [← hslot]
    rw [he, parseRun_nil]

theorem oDur_getD (du dl : Time) : (oDur du dl).getD 0 = du := by
  rw [oDur]
  by_cases hc : ¬ du = 0 ∨ ¬ dl = 0
  · rw [if_pos hc]; rfl
  · rw [if_neg hc, not_or, not_not, not_not] at *
    simp [hc.1]

theorem oTim_getD (tf : EasingFunction) (n : String) :
    (oTim tf n).getD .ease = tf := by
  rw [oTim]
  by_cases hc : ¬ tf = .ease ∨ EasingFunction.isIdentStr n
  · rw [if_pos hc]; rfl
  · rw [not_or, not_not] at hc
    rw [if_neg (by rw [not_or, not_not]; exact hc)]
    simp [hc.1]

theorem oDel_getD (dl : Time) : (oDel dl).getD 0 = dl := by
  rw [oDel]
  by_cases hc : ¬ dl = 0
  · rw [if_pos hc]; rfl
  · rw [if_neg hc, not_not] at *
    simp [hc]

theorem oIter_getD (ic : AnimationIterationCount) (n : String) :
    (oIter ic n).getD (.number 1) = ic := by
  rw [oIter]
  by_cases hc : ¬ ic = .number 1 ∨ n = "infinite"
  · rw [if_pos hc]; rfl
  · rw [not_or, not_not] at hc
    rw [if_neg (by rw [not_or, not_not]; exact hc)]
    simp [hc.1]

theorem oDir_getD (di : AnimationDirection) (n : String) :
    (oDir di n).getD .normal = di := by
  rw [oDir]
  by_cases hc : ¬ di = .normal ∨ (directionFromString n).isSome
  · rw [if_pos hc]; rfl
  · rw [not_or, not_not] at hc
    rw [if_neg (by rw [not_or, not_not]; exact hc)]
    simp [hc.1]

theorem oFill_getD (fm : AnimationFillMode) (n : String) :
    (oFill fm n).getD .none = fm := by
  rw [oFill]
  by_cases hc : ¬ fm = .none ∨ (¬ ciEq n "none" = true ∧ (fillModeFromString n).isSome)
  · rw [if_pos hc]; rfl
  · rw [not_or, not_not] at hc
    rw [if_neg (by rw [not_or, not_not]; exact hc)]
    simp [hc.1]

theorem oPlay_getD (ps : AnimationPlayState) (n : String) :
    (oPlay ps n).getD .running = ps := by
  rw [oPlay]
  by_cases hc : ¬ ps = .running ∨ (playStateFromString n).isSome
  · rw [if_pos hc]; rfl
  · rw [not_or, not_not] at hc
    rw [if_neg (by rw [not_or, not_not]; exact hc)]
    simp [hc.1]

theorem oTl_getD (tl : AnimationTimeline) : (oTl tl).getD .auto = tl := by
  rw [oTl]
  by_cases hc : tl ≠ .auto
  · rw [if_pos hc]; rfl
  · rw [if_neg hc, not_not] at *
    simp [hc]

/-- The round-trip core for entries whose name is an identifier. -/
theorem roundtripIdent
    (n : String) (du : Time) (tf : EasingFunction) (ic : AnimationIterationCount)
    (di : AnimationDirection) (ps : AnimationPlayState) (dl : Time)
    (fm : AnimationFillMode) (tl : AnimationTimeline)
    (hvalid : isValidCustomIdent n = true)
    (hnone : ¬ asciiLowerStr n = "none")
    (hinf : asciiLowerStr n = "infinite" → n = "infinite")
    (hwfTl : tlWf tl)
    (hTlFill : tl = .none →
      (¬ fm = .none ∨ (¬ ciEq n "none" = true ∧ (fillModeFromString n).isSome))) :
    Animation.parse (Animation.toCss
      ⟨.ident n, du, tf, ic, di, ps, dl, fm, tl⟩) =
    (⟨.ident n, du, tf, ic, di, ps, dl, fm, tl⟩, []) := by
  have hrun : parseRun {} (Animation.toCss ⟨.ident n, du, tf, ic, di, ps, dl, fm, tl⟩) =
      ({ name := some (.ident n), duration := oDur du dl, timing_function := oTim tf n,
         iteration_count := oIter ic n, direction := oDir di n, play_state := oPlay ps n,
         delay := oDel dl, fill_mode := oFill fm n, timeline := oTl tl }, []) := by
    simp only [Animation.toCss, AnimationName.toTok, List.append_assoc,
      List.singleton_append]
    rw [chunkDur du dl _ _ rfl]
    rw [chunkTim tf n _ _ rfl]
    rw [chunkDel dl _ _ ?hds rfl]
    case hds => intro hdl; simp [oDur, hdl]
    rw [chunkIter ic n _ _ rfl]
    rw [chunkDir di n _ _ rfl]
    rw [chunkFill fm n _ _ rfl]
    rw [chunkPlay ps n _ _ rfl]
    rw [stepNameIdent n _ _ rfl ?hTim ?hIter ?hDir ?hFill ?hPlay hnone hvalid]
    case hTim =>
      by_cases hcx : ¬ tf = .ease ∨ EasingFunction.isIdentStr n
      · left
        show (oTim tf n).isSome = true
        rw [oTim, if_pos hcx]
        rfl
      · right
        rw [not_or] at hcx
        exact Option.not_isSome_iff_eq_none.mp hcx.2
    case hIter =>
      by_cases hcx : ¬ ic = .number 1 ∨ n = "infinite"
      · left
        show (oIter ic n).isSome = true
        rw [oIter, if_pos hcx]
        rfl
      · right
        rw [not_or] at hcx
        intro hl
        exact hcx.2 (hinf hl)
    case hDir =>
      by_cases hcx : ¬ di = .normal ∨ (directionFromString n).isSome
      · left
        show (oDir di n).isSome = true
        rw [oDir, if_pos hcx]
        rfl
      · right
        rw [not_or] at hcx
        exact Option.not_isSome_iff_eq_none.mp hcx.2
    case hFill =>
      by_cases hcx : ¬ fm = .none ∨ (¬ ciEq n "none" = true ∧ (fillModeFromString n).isSome)
      · left
        show (oFill fm n).isSome = true
        rw [oFill, if_pos hcx]
        rfl
      · right
        rw [not_or] at hcx
        rcases Decidable.not_and_iff_or_not.mp hcx.2 with h | h
        · rw [not_not] at h
          have h2 : asciiLowerStr n = "none" := by
            have h3 : asciiLowerStr n = asciiLowerStr "none" := by
              simpa [ciEq] using h
            exact h3.trans rfl
          exact absurd h2 hnone
        · exact Option.not_isSome_iff_eq_none.mp h
    case hPlay =>
      by_cases hcx : ¬ ps = .running ∨ (playStateFromString n).isSome
      · left
        show (oPlay ps n).isSome = true
        rw [oPlay, if_pos hcx]
        rfl
      · right
        rw [not_or] at hcx
        exact Option.not_isSome_iff_eq_none.mp hcx.2
    rw [chunkTl (.ident n) tl _ (by simp) ?hname ?hslot ?hfillSlot hwfTl]
    case hname => rfl
    case hslot => rfl
    case hfillSlot =>
      intro htl
      show (oFill fm n).isSome = true
      rw [oFill, if_pos (hTlFill htl)]
      rfl
  simp only [Animation.parse, hrun, Option.getD_some, oDur_getD, oTim_getD,
    oDel_getD, oIter_getD, oDir_getD, oFill_getD, oPlay_getD, oTl_getD]

/-- The round-trip core for entries whose name is a string that keeps its
quotes on output. -/
theorem roundtripString
    (t : String) (du : Time) (tf : EasingFunction) (ic : AnimationIterationCount)
    (di : AnimationDirection) (ps : AnimationPlayState) (dl : Time)
    (fm : AnimationFillMode) (tl : AnimationTimeline)
    (hres : isReservedNameKeyword t = true)
    (hwfTl : tlWf tl)
    (hTlFill : tl = .none →
      (¬ fm = .none ∨ (¬ ciEq t "none" = true ∧ (fillModeFromString t).isSome))) :
    Animation.parse (Animation.toCss
      ⟨.string t, du, tf, ic, di, ps, dl, fm, tl⟩) =
    (⟨.string t, du, tf, ic, di, ps, dl, fm, tl⟩, []) := by
  have hrun : parseRun {} (Animation.toCss ⟨.string t, du, tf, ic, di, ps, dl, fm, tl⟩) =
      ({ name := some (.string t), duration := oDur du dl, timing_function := oTim tf t,
         iteration_count := oIter ic t, direction := oDir di t, play_state := oPlay ps t,
         delay := oDel dl, fill_mode := oFill fm t, timeline := oTl tl }, []) := by
    simp only [Animation.toCss, AnimationName.toTok, hres, eq_self_iff_true, if_true,
      List.append_assoc, List.singleton_append]
    rw [chunkDur du dl _ _ rfl]
    rw [chunkTim tf t _ _ rfl]
    rw [chunkDel dl _ _ ?hds rfl]
    case hds => intro hdl; simp [oDur, hdl]
    rw [chunkIter ic t _ _ rfl]
    rw [chunkDir di t _ _ rfl]
    rw [chunkFill fm t _ _ rfl]
    rw [chunkPlay ps t _ _ rfl]
    rw [stepNameStr t _ _ rfl]
    rw [chunkTl (.string t) tl _ (by simp) ?hname ?hslot ?hfillSlot hwfTl]
    case hname => rfl
    case hslot => rfl
    case hfillSlot =>
      intro htl
      show (oFill fm t).isSome = true
      rw [oFill, if_pos (hTlFill htl)]
      rfl
  simp only [Animation.parse, hrun, Option.getD_some, oDur_getD, oTim_getD,
    oDel_getD, oIter_getD, oDir_getD, oFill_getD, oPlay_getD, oTl_getD]

/-- Does the printer emit an explicit fill-mode for this entry (the exact
condition of `Animation::to_css`)? -/
def fillPrintedB (fm : AnimationFillMode) (n : String) : Bool :=
  decide (¬ fm = AnimationFillMode.none ∨
    (¬ ciEq n "none" = true ∧ (fillModeFromString n).isSome))

/-- Well-formedness of an entry: an identifier name is a valid custom ident
and a dashed-ident timeline really carries a dashed ident. -/
def Animation.wfB (a : Animation) : Bool :=
  (match a.name with
   | .ident s => isValidCustomIdent s
   | _ => true) &&
  (match a.timeline with
   | .dashedIdent d => isDashedStr d
   | _ => true)

/-- The reparse-safety conditions the greedy grammar forces beyond
well-formedness: a `none`-name entry carries only defaults; an identifier
name is not a case-variant of `none` and is `infinite` only in exact
lowercase; a string name is one that keeps its quotes; and a `none`
timeline requires the fill-mode field to be printed. -/
def Animation.reparseSafeB (a : Animation) : Bool :=
  (match a.name with
   | .none => decide (a = animationDefault)
   | .ident s =>
     !(decide (asciiLowerStr s = "none")) &&
       (!(decide (asciiLowerStr s = "infinite")) || decide (s = "infinite"))
   | .string s => isReservedNameKeyword s) &&
  (match a.timeline, a.name with
   | .none, .ident s => fillPrintedB a.fill_mode s
   | .none, .string s => fillPrintedB a.fill_mode s
   | .none, .none => false
   | _, _ => true)

/-- Claim C1 (amended): serialization followed by re-parsing is the
identity on every well-formed, reparse-safe entry; the exclusions in
`Animation.reparseSafeB` are each forced by a concrete failure of the
grammar (see `roundtrip_fails_at_none_name_with_fill` for one). -/
theorem animation_roundtrip_reparse_safe (a : Animation)
    (hwf : a.wfB = true) (hsafe : a.reparseSafeB = true) :
    Animation.parse (Animation.toCss a) = (a, []) := by
  obtain ⟨nm, du, tf, ic, di, ps, dl, fm, tl⟩ := a
  simp only [Animation.wfB, Bool.and_eq_true] at hwf
  simp only [Animation.reparseSafeB, Bool.and_eq_true] at hsafe
  obtain ⟨hw1, hw2⟩ := hwf
  obtain ⟨hs1, hs2⟩ := hsafe
  have hTl : tlWf tl := by
    cases tl <;> first
      | exact trivial
      | exact hw2
  cases nm with
  | none =>
    have he : (⟨.none, du, tf, ic, di, ps, dl, fm, tl⟩ : Animation) =
        animationDefault := of_decide_eq_true hs1
    rw [he]
    rfl
  | ident s =>
    simp only [Bool.and_eq_true, Bool.or_eq_true, Bool.not_eq_true',
      decide_eq_true_eq, decide_eq_false_iff_not] at hs1
    have hTlFill : tl = .none →
        (¬ fm = .none ∨ (¬ ciEq s "none" = true ∧ (fillModeFromString s).isSome)) := by
      intro htl
      rw [htl] at hs2
      exact of_decide_eq_true hs2
    exact roundtripIdent s du tf ic di ps dl fm tl hw1 hs1.1
      (fun hl => hs1.2.resolve_left (not_not_intro hl)) hTl hTlFill
  | string t =>
    have hTlFill : tl = .none →
        (¬ fm = .none ∨ (¬ ciEq t "none" = true ∧ (fillModeFromString t).isSome)) := by
      intro htl
      rw [htl] at hs2
      exact of_decide_eq_true hs2
    exact roundtripString t du tf ic di ps dl fm tl hs1 hTl hTlFill

/-- An entry with representable field values on which the claim as stated
fails: name `none` with a non-default fill mode. -/
def c1Counterexample : Animation :=
  { animationDefault with fill_mode := .forwards }

/-- Claim C1, refuted as stated: re-parsing the serialization of
`c1Counterexample` does not give the entry back (the printer emits only
`none`, so the fill mode is lost and the re-parsed entry holds the default
fill mode). -/
theorem roundtrip_fails_at_none_name_with_fill :
    Animation.parse (Animation.toCss c1Counterexample) ≠ (c1Counterexample, []) := by
  intro h
  have h2 := congrArg (fun p => p.1.fill_mode) h
  simp only at h2
  have h3 : AnimationFillMode.none = AnimationFillMode.forwards := h2
  exact absurd h3 (by decide)

/-- A reparse-safe entry exercising a disambiguation rule: name `ease`. -/
def c1Witness : Animation :=
  { animationDefault with name := .ident "ease", duration := 2 }

/-- Witness for `animation_roundtrip_reparse_safe` at `c1Witness`. -/
theorem animation_roundtrip_reparse_safe_witness :
    (c1Witness.wfB = true ∧ c1Witness.reparseSafeB = true) ∧
    Animation.parse (Animation.toCss c1Witness) = (c1Witness, []) :=
  ⟨⟨by decide, by decide⟩,
   animation_roundtrip_reparse_safe c1Witness (by decide) (by decide)⟩
